import Mathlib

/-!
Verification of the IndiGround operations command center core
(turnaround-time estimator, Monte Carlo risk simulator and the
fuel-crisis / bowser allocation engine), shallowly embedded from
`server/routes.ts`, `server/storage.ts` and `shared/schema.ts`.

Numbers follow the JavaScript source: request fields and all duration
formulas are exact rationals, `Math.round` is `jsRound` (round half toward
positive infinity), and every rounded duration is an integer.  Database
columns typed `integer` are embedded as `ℤ`, nullable columns as `Option`.
-/

namespace IndiGround

/-- JavaScript `Math.round`: round half toward positive infinity,
`Math.round x = ⌊x + 1/2⌋`. -/
def jsRound (q : ℚ) : ℤ := ⌊q + 1/2⌋

/-- The input fields of `calcPrediction` (`server/routes.ts` lines 19-28). -/
structure CalcParams where
  bagsCount : ℚ
  priorityBags : ℚ
  fuelLiters : ℚ
  mealsQty : ℚ
  specialMeals : ℚ
  cateringRequired : Bool
  safetyCheck : Bool
  aircraftType : String
deriving DecidableEq

/-- The record returned by `calcPrediction` (`server/routes.ts` line 46). -/
structure PredictionResult where
  predictedTat : ℤ
  bottleneck : String
  penaltyRisk : ℤ
  baggageDuration : ℤ
  fuelDuration : ℤ
  cateringDuration : ℤ
  safetyCheckDuration : ℤ
deriving DecidableEq

/-- Bottleneck selection of `calcPrediction` (`server/routes.ts` lines 37-40):
start at BAGGAGE, take FUEL only when strictly greater, then CATERING only
when strictly greater than the running maximum.  The same three lines are
duplicated verbatim in the deactivation recompute (lines 363-365). -/
def calcBottleneck (baggageDuration fuelDuration cateringDuration : ℤ) : String :=
  let bottleneck := "BAGGAGE"
  let maxDur := baggageDuration
  let bottleneck1 := if fuelDuration > maxDur then "FUEL" else bottleneck
  let maxDur1 := if fuelDuration > maxDur then fuelDuration else maxDur
  if cateringDuration > maxDur1 then "CATERING" else bottleneck1

/-- `calcPrediction` (`server/routes.ts` lines 19-47). -/
def calcPrediction (flight : CalcParams) : PredictionResult :=
  let baggageDuration := jsRound (flight.bagsCount * 0.15 + flight.priorityBags * 0.1)
  let fuelDuration := jsRound (flight.fuelLiters * 0.002)
  let cateringDuration :=
    if flight.cateringRequired then jsRound (flight.mealsQty * 0.08 + flight.specialMeals * 0.1)
    else 0
  let safetyCheckDuration : ℤ := if flight.safetyCheck then 15 else 0
  let predictedTat := baggageDuration + fuelDuration + cateringDuration + safetyCheckDuration + 10
  let bottleneck := calcBottleneck baggageDuration fuelDuration cateringDuration
  let targetTat : ℤ := if flight.aircraftType = "Wide" then 60 else 35
  let delay := max 0 (predictedTat - targetTat)
  let penaltyRisk := delay * 5400
  ⟨predictedTat, bottleneck, penaltyRisk, baggageDuration, fuelDuration, cateringDuration,
    safetyCheckDuration⟩

/-! ## Persisted data model (`shared/schema.ts`, DAY 2 tables) -/

/-- A row of the `flights` table.  Timestamps are milliseconds since the
epoch, matching the `Date.getTime()` arithmetic of the route handlers. -/
structure Flight where
  id : ℕ
  flightNumber : String
  airline : String
  aircraftType : String
  arrivalTime : ℤ
  arrivalDelay : ℤ
  fuelLiters : ℤ
  bagsCount : ℤ
  priorityBags : ℤ
  mealsQty : ℤ
  specialMeals : ℤ
  cateringRequired : Bool
  safetyCheck : Bool
  predictedTat : Option ℤ
  bottleneck : Option String
  penaltyRisk : Option ℤ
  actualTat : Option ℤ
  gateId : Option ℕ
  status : String
  penaltyRatePerMin : ℤ
  fuelQueuePosition : Option ℤ
  fuelStartTime : Option ℤ
deriving DecidableEq

/-- A row of the `gates` table. -/
structure Gate where
  id : ℕ
  gateNumber : String
  status : String
  currentFlightId : Option ℕ
deriving DecidableEq

/-- The singleton `crisis_state` row. -/
structure CrisisState where
  id : ℕ
  fuelCrisisActive : Bool
  bowserCount : ℤ
  manualPumpSpeed : ℤ
  activatedAt : Option ℤ
deriving DecidableEq

/-- The database snapshot the route handlers read and write.  `nextFlightId`
models the `serial` primary-key sequence of the `flights` table. -/
structure DbState where
  flights : List Flight
  gates : List Gate
  crisis : Option CrisisState
  nextFlightId : ℕ
deriving DecidableEq

/-- The estimator parameters carried by a flight row (the fields
`calcPrediction` reads, cast from the integer columns). -/
def Flight.params (f : Flight) : CalcParams :=
  ⟨(f.bagsCount : ℚ), (f.priorityBags : ℚ), (f.fuelLiters : ℚ), (f.mealsQty : ℚ),
    (f.specialMeals : ℚ), f.cateringRequired, f.safetyCheck, f.aircraftType⟩

/-! ## Storage operations (`server/storage.ts`) -/

/-- `storage.createFlight`: insert with a fresh serial id. -/
def createFlight (s : DbState) (f0 : Flight) : DbState × Flight :=
  let f := { f0 with id := s.nextFlightId }
  ({ s with flights := s.flights ++ [f], nextFlightId := s.nextFlightId + 1 }, f)

/-- `storage.updateFlight(id, fields)`: patch the row(s) with the given id. -/
def updateFlightWith (s : DbState) (fid : ℕ) (p : Flight → Flight) : DbState :=
  { s with flights := s.flights.map (fun g => if g.id = fid then p g else g) }

/-- `storage.updateGate(id, fields)`: patch the row(s) with the given id. -/
def updateGateWith (s : DbState) (gid : ℕ) (p : Gate → Gate) : DbState :=
  { s with gates := s.gates.map (fun g => if g.id = gid then p g else g) }

/-- `storage.getDivertedFlights()`: flights whose status is DIVERTED. -/
def getDivertedFlights (s : DbState) : List Flight :=
  s.flights.filter (fun f => f.status = "DIVERTED")

/-- `storage.activateFuelCrisis` (`server/storage.ts` lines 100-115). -/
def activateFuelCrisis (now : ℤ) (s : DbState) : DbState :=
  match s.crisis with
  | some c =>
      { s with crisis := some { c with fuelCrisisActive := true, activatedAt := some now } }
  | none =>
      { s with crisis := some ⟨1, true, 4, 500, some now⟩ }

/-- `storage.deactivateFuelCrisis` (`server/storage.ts` lines 117-130):
clear the flag and the queue fields of `FUEL_QUEUE` flights. -/
def deactivateFuelCrisisStorage (s : DbState) : DbState :=
  let s0 :=
    match s.crisis with
    | some c => { s with crisis := some { c with fuelCrisisActive := false } }
    | none => s
  { s0 with
    flights := s0.flights.map (fun f =>
      if f.status = "FUEL_QUEUE" then { f with fuelQueuePosition := none, fuelStartTime := none }
      else f) }

/-! ## POST /api/crisis/activate (`server/routes.ts` lines 253-331) -/

/-- Field defaults of an `InsertFlight` row (`shared/schema.ts` column
defaults); the synthesized roster overrides most of them. -/
def blankFlight : Flight where
  id := 0
  flightNumber := ""
  airline := ""
  aircraftType := ""
  arrivalTime := 0
  arrivalDelay := 0
  fuelLiters := 0
  bagsCount := 0
  priorityBags := 0
  mealsQty := 0
  specialMeals := 0
  cateringRequired := true
  safetyCheck := true
  predictedTat := none
  bottleneck := none
  penaltyRisk := none
  actualTat := none
  gateId := none
  status := "COMPLETED"
  penaltyRatePerMin := 5400
  fuelQueuePosition := none
  fuelStartTime := none

/-- The synthesized diverted-flight roster (`server/routes.ts` lines 263-269),
with arrival times relative to the activation instant. -/
def divertedRoster (now : ℤ) : List Flight :=
  [ { blankFlight with
        flightNumber := "INT-1015-003", airline := "Air France", aircraftType := "Wide",
        fuelLiters := 42000, bagsCount := 309, priorityBags := 25, mealsQty := 280,
        specialMeals := 20, arrivalTime := now - 25 * 60000, penaltyRatePerMin := 15000,
        status := "DIVERTED" },
    { blankFlight with
        flightNumber := "INT-1015-004", airline := "Singapore Air", aircraftType := "Wide",
        fuelLiters := 45000, bagsCount := 437, priorityBags := 25, mealsQty := 329,
        specialMeals := 20, arrivalTime := now - 10 * 60000, penaltyRatePerMin := 15000,
        status := "DIVERTED" },
    { blankFlight with
        flightNumber := "INT-1015-002", airline := "British Airways", aircraftType := "Wide",
        fuelLiters := 46000, bagsCount := 342, priorityBags := 25, mealsQty := 261,
        specialMeals := 20, arrivalTime := now - 8 * 60000, penaltyRatePerMin := 15000,
        status := "DIVERTED" },
    { blankFlight with
        flightNumber := "INT-1015-001", airline := "Emirates", aircraftType := "Wide",
        fuelLiters := 48000, bagsCount := 410, priorityBags := 25, mealsQty := 305,
        specialMeals := 20, arrivalTime := now + 95 * 60000, penaltyRatePerMin := 15000,
        status := "DIVERTED" },
    { blankFlight with
        flightNumber := "INT-1015-000", airline := "Lufthansa", aircraftType := "Wide",
        fuelLiters := 44000, bagsCount := 412, priorityBags := 25, mealsQty := 327,
        specialMeals := 20, arrivalTime := now + 144 * 60000, penaltyRatePerMin := 15000,
        status := "DIVERTED" } ]

/-- Gate lookup by gate number; `new Map(allGatesNow.map(g => [g.gateNumber, g]))`
keeps the last entry per key, so look up from the back of the snapshot. -/
def gateByName (gs : List Gate) (name : String) : Option Gate :=
  gs.reverse.find? (fun g => g.gateNumber = name)

def intGateNames : List String := ["G5", "G6", "G7"]

/-- The prediction update stored for each synthesized diverted flight:
`updateFlight(created.id, { predictedTat, bottleneck: "FUEL", penaltyRisk })`. -/
def synthPredPatch (predictedTat penaltyRisk : ℤ) : Flight → Flight := fun g =>
  { g with predictedTat := some predictedTat, bottleneck := some "FUEL",
           penaltyRisk := some penaltyRisk }

/-- The gate-assignment update stored for a landed synthesized flight:
`{ gateId, fuelQueuePosition: intBowserSlot, fuelStartTime: new Date() }`. -/
def synthGatePatch (gid : ℕ) (slot : ℤ) (now : ℤ) : Flight → Flight := fun g =>
  { g with gateId := some gid, fuelQueuePosition := some slot, fuelStartTime := some now }

/-- `{ status: "ACTIVE", currentFlightId: created.id }` on a gate. -/
def gateActivePatch (fid : ℕ) : Gate → Gate := fun g =>
  { g with status := "ACTIVE", currentFlightId := some fid }

/-- `{ status: "FREE", currentFlightId: null }` on a gate. -/
def gateFreePatch : Gate → Gate := fun g =>
  { g with status := "FREE", currentFlightId := none }

/-- One iteration of the synthesis loop (`server/routes.ts` lines 280-305):
create the roster flight, store its manual-fuelling prediction, and if it has
already landed and an international bowser slot (1-3) is open, occupy the next
reserved gate from the pre-loop gate snapshot. -/
def synthesizeStep (now : ℤ) (gatesSnap : List Gate) (acc : DbState × ℤ) (f : Flight) :
    DbState × ℤ :=
  let s := acc.1
  let intBowserSlot := acc.2
  let sc := createFlight s f
  let s1 := sc.1
  let created := sc.2
  let fuelDuration := jsRound ((f.fuelLiters : ℚ) / 500)
  let baggageDuration := jsRound ((f.bagsCount : ℚ) * 0.15 + (f.priorityBags : ℚ) * 0.1)
  let cateringDuration := jsRound ((f.mealsQty : ℚ) * 0.08 + (f.specialMeals : ℚ) * 0.1)
  let predictedTat := baggageDuration + fuelDuration + cateringDuration + 15 + 10
  let penaltyRisk := max 0 (predictedTat - 60) * f.penaltyRatePerMin
  let s2 := updateFlightWith s1 created.id (synthPredPatch predictedTat penaltyRisk)
  let isLanded := f.arrivalTime ≤ now
  if isLanded ∧ intBowserSlot ≤ 3 then
    let gateName := intGateNames.getD (intBowserSlot - 1).toNat ""
    let s3 :=
      match gateByName gatesSnap gateName with
      | some gate =>
          let s3a := updateGateWith s2 gate.id (gateActivePatch created.id)
          updateFlightWith s3a created.id (synthGatePatch gate.id intBowserSlot now)
      | none => s2
    (s3, intBowserSlot + 1)
  else
    (s2, intBowserSlot)

/-- The `if (diverted.length === 0)` synthesis block of the activation
handler: the gate snapshot is taken once before the loop. -/
def synthesizeDiverted (now : ℤ) (s : DbState) : DbState :=
  let gatesSnap := s.gates
  ((divertedRoster now).foldl (synthesizeStep now gatesSnap) (s, 1)).1

/-- The per-flight update of the domestic bowser-4 loop
(`server/routes.ts` lines 313-324) at 0-based queue index `i`.  Note
`queueWait = i * fuelDuration`: the i-th flight's own fuel duration scaled
by its position, not the sum of the durations ahead of it. -/
def domesticActivatePatch (i : ℕ) (f : Flight) : Flight → Flight :=
  let fuelDuration := jsRound ((f.fuelLiters : ℚ) / 500)
  let baggageDuration := jsRound ((f.bagsCount : ℚ) * 0.15 + (f.priorityBags : ℚ) * 0.1)
  let cateringDuration :=
    if f.cateringRequired then jsRound ((f.mealsQty : ℚ) * 0.08 + (f.specialMeals : ℚ) * 0.1)
    else 0
  let safetyCheckDuration : ℤ := if f.safetyCheck then 15 else 0
  let queueWait := (i : ℤ) * fuelDuration
  let predictedTat :=
    baggageDuration + fuelDuration + cateringDuration + safetyCheckDuration + 10 + queueWait
  let targetTat : ℤ := if f.aircraftType = "Wide" then 60 else 35
  let penaltyRisk := max 0 (predictedTat - targetTat) * 5400
  fun g =>
    { g with predictedTat := some predictedTat, penaltyRisk := some penaltyRisk,
             bottleneck := some "FUEL", fuelQueuePosition := some ((i : ℤ) + 1) }

/-- The domestic bowser-4 loop of the activation handler, iterating with the
0-based index `i` over the snapshot of ACTIVE/SCHEDULED domestic flights. -/
def activateDomesticGo : ℕ → List Flight → DbState → DbState
  | _, [], st => st
  | i, f :: rest, st =>
      activateDomesticGo (i + 1) rest (updateFlightWith st f.id (domesticActivatePatch i f))

/-- Domestic flights the activation loop queues on bowser 4: ACTIVE or
SCHEDULED with the domestic penalty rate (`(f.penaltyRatePerMin ?? 5400) === 5400`;
the column is NOT NULL with default 5400). -/
def domesticFilter (fl : List Flight) : List Flight :=
  fl.filter (fun f =>
    (f.status = "ACTIVE" ∨ f.status = "SCHEDULED") ∧ f.penaltyRatePerMin = 5400)

/-- POST /api/crisis/activate (`server/routes.ts` lines 253-331). -/
def activateCrisisRoute (now : ℤ) (s : DbState) : DbState :=
  let s0 := activateFuelCrisis now s
  let diverted := getDivertedFlights s0
  let s1 := if diverted.isEmpty then synthesizeDiverted now s0 else s0
  activateDomesticGo 0 (domesticFilter s1.flights) s1

/-! ## POST /api/crisis/deactivate (`server/routes.ts` lines 333-374) -/

/-- The per-flight normal-hydrant recompute of the deactivation handler
(`server/routes.ts` lines 355-365), returning
(predictedTat, penaltyRisk, bottleneck). -/
def deactRecalc (f : Flight) : ℤ × ℤ × String :=
  let fuelDuration := jsRound ((f.fuelLiters : ℚ) * 0.002)
  let baggageDuration := jsRound ((f.bagsCount : ℚ) * 0.15 + (f.priorityBags : ℚ) * 0.1)
  let cateringDuration :=
    if f.cateringRequired then jsRound ((f.mealsQty : ℚ) * 0.08 + (f.specialMeals : ℚ) * 0.1)
    else 0
  let safetyCheckDuration : ℤ := if f.safetyCheck then 15 else 0
  let predictedTat :=
    baggageDuration + fuelDuration + cateringDuration + safetyCheckDuration + 10
  let targetTat : ℤ := if f.aircraftType = "Wide" then 60 else 35
  let delay := max 0 (predictedTat - targetTat)
  let bottleneck := calcBottleneck baggageDuration fuelDuration cateringDuration
  (predictedTat, delay * 5400, bottleneck)

/-- Step 1 of the deactivation handler: free the gate referenced by each
diverted flight of the snapshot. -/
def freeGatesGo : List Flight → DbState → DbState
  | [], st => st
  | f :: rest, st =>
      let st1 :=
        match f.gateId with
        | some gid => updateGateWith st gid gateFreePatch
        | none => st
      freeGatesGo rest st1

/-- The update written for one flight by the deactivation recompute loop:
`updateFlight(f.id, { predictedTat, penaltyRisk, bottleneck, fuelQueuePosition: null })`
with the values computed from the snapshot flight `d`. -/
def deactPatch (d : Flight) (g : Flight) : Flight :=
  { g with predictedTat := some (deactRecalc d).1, penaltyRisk := some (deactRecalc d).2.1,
           bottleneck := some (deactRecalc d).2.2, fuelQueuePosition := none }

/-- Step 3 of the deactivation handler: recompute each snapshot
ACTIVE/SCHEDULED flight with the normal hydrant formula and clear its
queue position. -/
def deactDomesticGo : List Flight → DbState → DbState
  | [], st => st
  | f :: rest, st => deactDomesticGo rest (updateFlightWith st f.id (deactPatch f))

/-- POST /api/crisis/deactivate (`server/routes.ts` lines 333-374):
storage deactivation, then from one flights snapshot free the diverted
flights' gates, delete all DIVERTED rows, and restore the normal-hydrant
prediction of every ACTIVE/SCHEDULED flight. -/
def deactivateCrisisRoute (s : DbState) : DbState :=
  let s0 := deactivateFuelCrisisStorage s
  let allFlights := s0.flights
  let divertedFlights := allFlights.filter (fun f => f.status = "DIVERTED")
  let s1 := freeGatesGo divertedFlights s0
  let s2 := { s1 with flights := s1.flights.filter (fun f => ¬ f.status = "DIVERTED") }
  let domesticFlights := allFlights.filter (fun f => f.status = "ACTIVE" ∨ f.status = "SCHEDULED")
  deactDomesticGo domesticFlights s2

/-! ## GET /api/fuel-queue (`server/routes.ts` lines 402-428) -/

/-- Sort key of the domestic queue: `(a.fuelQueuePosition ?? 0) - (b.fuelQueuePosition ?? 0)`. -/
def queuePosLE (a b : Flight) : Prop :=
  a.fuelQueuePosition.getD 0 ≤ b.fuelQueuePosition.getD 0

instance : DecidableRel queuePosLE := fun a b =>
  inferInstanceAs (Decidable (a.fuelQueuePosition.getD 0 ≤ b.fuelQueuePosition.getD 0))

instance : IsTotal Flight queuePosLE :=
  ⟨fun a b => le_total (a.fuelQueuePosition.getD 0) (b.fuelQueuePosition.getD 0)⟩

instance : IsTrans Flight queuePosLE :=
  ⟨fun _ _ _ h1 h2 => le_trans h1 h2⟩

/-- The domestic bowser-4 queue shown by GET /api/fuel-queue: flights with a
queue position and status ACTIVE or SCHEDULED, sorted by position. -/
def domesticQueue (s : DbState) : List Flight :=
  List.insertionSort queuePosLE
    (s.flights.filter (fun f =>
      ¬ f.fuelQueuePosition = none ∧ (f.status = "ACTIVE" ∨ f.status = "SCHEDULED")))

/-- `estimatedWaitMins` of the queue entry at index `idx`:
`domesticQueue.slice(0, idx).reduce((s, p) => s + Math.round(p.fuelLiters / 500), 0)`. -/
def estimatedWaitMins (queue : List Flight) (idx : ℕ) : ℤ :=
  ((queue.take idx).map (fun p => jsRound ((p.fuelLiters : ℚ) / 500))).sum

/-- The estimated-wait column of the queue view, one value per queue entry,
in queue order. -/
def fuelQueueWaits (s : DbState) : List ℤ :=
  (List.range (domesticQueue s).length).map (estimatedWaitMins (domesticQueue s))

/-! ## POST /api/montecarlo (`server/routes.ts` lines 168-205)

The four `randomNormal` calls of one loop iteration are abstracted as an
arbitrary quadruple of real samples; every claimed property holds regardless
of the random draws, so the pipeline is a function of the drawn samples. -/

/-- The noisy sub-duration samples of one Monte Carlo trial. -/
structure Trial where
  simBaggage : ℚ
  simFuel : ℚ
  simCatering : ℚ
  simSafety : ℚ
deriving DecidableEq

/-- `const simulations = 1000`. -/
def simulations : ℕ := 1000

/-- One trial's TAT: `Math.round(simBaggage + simFuel + simCatering + simSafety + 10)`. -/
def trialTat (t : Trial) : ℤ :=
  jsRound (t.simBaggage + t.simFuel + t.simCatering + t.simSafety + 10)

/-- The `results` array pushed by the trial loop. -/
def mcResults (draws : List Trial) : List ℤ := draws.map trialTat

/-- `results.sort((a, b) => a - b)`. -/
def sortedResults (results : List ℤ) : List ℤ :=
  List.insertionSort (fun a b : ℤ => a ≤ b) results

/-- Percentile index `Math.floor(simulations * f)`. -/
def percentileIdx (f : ℚ) : ℕ := (⌊(simulations : ℚ) * f⌋).toNat

/-- Histogram bin key `Math.floor(r / 2) * 2` (floor division). -/
def binOf (r : ℤ) : ℤ := Int.fdiv r 2 * 2

/-- `histogramMap.set(bin, (histogramMap.get(bin) || 0) + 1)`: a JS `Map`
updates an existing key in place and appends a new key. -/
def histInsert (m : List (ℤ × ℤ)) (b : ℤ) : List (ℤ × ℤ) :=
  if m.any (fun p => p.1 = b) then m.map (fun p => if p.1 = b then (p.1, p.2 + 1) else p)
  else m ++ [(b, 1)]

/-- The insertion-ordered histogram map accumulated over the results. -/
def histogramMap (results : List ℤ) : List (ℤ × ℤ) :=
  results.foldl (fun m r => histInsert m (binOf r)) []

/-- `.sort((a, b) => a.bin - b.bin)` on the emitted (bin, count) pairs. -/
def binLE (a b : ℤ × ℤ) : Prop := a.1 ≤ b.1

instance : DecidableRel binLE := fun a b => inferInstanceAs (Decidable (a.1 ≤ b.1))

instance : IsTotal (ℤ × ℤ) binLE := ⟨fun a b => le_total a.1 b.1⟩

instance : IsTrans (ℤ × ℤ) binLE := ⟨fun _ _ _ h1 h2 => le_trans h1 h2⟩

/-- The `histogramData` of the response: (bin, count) pairs sorted by bin. -/
def histogramData (results : List ℤ) : List (ℤ × ℤ) :=
  List.insertionSort binLE (histogramMap results)

/-- The JSON body of the Monte Carlo response. -/
structure SimulationResult where
  p50 : ℤ
  p75 : ℤ
  p90 : ℤ
  p50Penalty : ℤ
  p75Penalty : ℤ
  p90Penalty : ℤ
  bottleneckConsistency : ℤ
  histogramData : List (ℤ × ℤ)
deriving DecidableEq

/-- The Monte Carlo handler's computation after validation
(`server/routes.ts` lines 171-200), as a function of the aircraft type and
the drawn samples.  The source sorts `results` in place before building the
histogram, so the histogram is accumulated over the sorted array. -/
def monteCarloSim (aircraftType : String) (draws : List Trial) : SimulationResult :=
  let targetTat : ℤ := if aircraftType = "Wide" then 60 else 35
  let results := mcResults draws
  let baggageBottleneckCount :=
    (draws.filter (fun t => t.simBaggage > t.simFuel ∧ t.simBaggage > t.simCatering)).length
  let sorted := sortedResults results
  let p50 := sorted.getD (percentileIdx 0.5) 0
  let p75 := sorted.getD (percentileIdx 0.75) 0
  let p90 := sorted.getD (percentileIdx 0.9) 0
  { p50 := p50, p75 := p75, p90 := p90,
    p50Penalty := max 0 (p50 - targetTat) * 5400,
    p75Penalty := max 0 (p75 - targetTat) * 5400,
    p90Penalty := max 0 (p90 - targetTat) * 5400,
    bottleneckConsistency :=
      jsRound ((baggageBottleneckCount : ℚ) / (simulations : ℚ) * 100),
    histogramData := histogramData sorted }

/-! ## Request validation (`shared/schema.ts` predictRequestSchema, and the
POST /api/predict and /api/montecarlo handlers)

The request body is a parsed-JSON object: a list of key/value pairs whose
values are JSON primitives.  JSON cannot denote NaN or the infinities, so
every numeric field value is an exact rational.  Validation walks the schema
fields in declaration order and collects one issue per failing field;
`err.errors[0]` is the first of them. -/

/-- A primitive JSON field value. -/
inductive JsonVal where
  | jnull : JsonVal
  | jbool : Bool → JsonVal
  | jnum : ℚ → JsonVal
  | jstr : String → JsonVal
deriving DecidableEq

/-- A parsed JSON request body (object). -/
def JsonBody : Type := List (String × JsonVal)

/-- Field lookup in the body. -/
def getField (body : JsonBody) (k : String) : Option JsonVal :=
  (List.find? (fun p => p.1 = k) body).map (fun p => p.2)

/-- `z.string()`: required string field. -/
def checkStr (body : JsonBody) (k : String) : Option String :=
  match getField body k with
  | some (JsonVal.jstr s) => some s
  | _ => none

/-- `z.number()`: required numeric field. -/
def checkNumReq (body : JsonBody) (k : String) : Option ℚ :=
  match getField body k with
  | some (JsonVal.jnum q) => some q
  | _ => none

/-- `z.number().default(d)`: missing means the default, a present
non-number is an issue. -/
def checkNumOpt (body : JsonBody) (k : String) (d : ℚ) : Option ℚ :=
  match getField body k with
  | some (JsonVal.jnum q) => some q
  | some _ => none
  | none => some d

/-- `z.boolean().default(d)`. -/
def checkBoolOpt (body : JsonBody) (k : String) (d : Bool) : Option Bool :=
  match getField body k with
  | some (JsonVal.jbool b) => some b
  | some _ => none
  | none => some d

/-- The issue contributed by one field check. -/
def issueOf {α : Type} (k : String) : Option α → List String
  | none => [k]
  | some _ => []

/-- The fields of `predictRequestSchema` (`shared/schema.ts` lines 196-212),
shared by the predict and Monte Carlo endpoints. -/
structure PredictRequest where
  flightNumber : String
  airline : String
  aircraftType : String
  arrivalTime : String
  arrivalDelay : ℚ
  fuelLiters : ℚ
  bagsCount : ℚ
  priorityBags : ℚ
  mealsQty : ℚ
  specialMeals : ℚ
  cateringRequired : Bool
  safetyCheck : Bool
  fuelCrisisActive : Bool
  penaltyRatePerMin : ℚ
deriving DecidableEq

/-- The validation issues of a request body, one per failing field, in
schema field declaration order. -/
def requestIssues (body : JsonBody) : List String :=
  issueOf "flightNumber" (checkStr body "flightNumber") ++
  issueOf "airline" (checkStr body "airline") ++
  issueOf "aircraftType" (checkStr body "aircraftType") ++
  issueOf "arrivalTime" (checkStr body "arrivalTime") ++
  issueOf "arrivalDelay" (checkNumOpt body "arrivalDelay" 0) ++
  issueOf "fuelLiters" (checkNumReq body "fuelLiters") ++
  issueOf "bagsCount" (checkNumReq body "bagsCount") ++
  issueOf "priorityBags" (checkNumOpt body "priorityBags" 0) ++
  issueOf "mealsQty" (checkNumReq body "mealsQty") ++
  issueOf "specialMeals" (checkNumOpt body "specialMeals" 0) ++
  issueOf "cateringRequired" (checkBoolOpt body "cateringRequired" true) ++
  issueOf "safetyCheck" (checkBoolOpt body "safetyCheck" true) ++
  issueOf "fuelCrisisActive" (checkBoolOpt body "fuelCrisisActive" false) ++
  issueOf "penaltyRatePerMin" (checkNumOpt body "penaltyRatePerMin" 5400)

/-- `predictRequestSchema.parse`: throws the collected issues when any field
fails, otherwise yields the validated request. -/
def parsePredictRequest (body : JsonBody) : Except (List String) PredictRequest :=
  if requestIssues body = [] then
    Except.ok
      ⟨(checkStr body "flightNumber").getD "", (checkStr body "airline").getD "",
        (checkStr body "aircraftType").getD "", (checkStr body "arrivalTime").getD "",
        (checkNumOpt body "arrivalDelay" 0).getD 0, (checkNumReq body "fuelLiters").getD 0,
        (checkNumReq body "bagsCount").getD 0, (checkNumOpt body "priorityBags" 0).getD 0,
        (checkNumReq body "mealsQty").getD 0, (checkNumOpt body "specialMeals" 0).getD 0,
        (checkBoolOpt body "cateringRequired" true).getD true,
        (checkBoolOpt body "safetyCheck" true).getD true,
        (checkBoolOpt body "fuelCrisisActive" false).getD false,
        (checkNumOpt body "penaltyRatePerMin" 5400).getD 5400⟩
  else Except.error (requestIssues body)

/-- The estimator parameters of a validated request (the fields
`calcPrediction` reads). -/
def reqParams (r : PredictRequest) : CalcParams :=
  ⟨r.bagsCount, r.priorityBags, r.fuelLiters, r.mealsQty, r.specialMeals,
    r.cateringRequired, r.safetyCheck, r.aircraftType⟩

/-- The HTTP outcome of POST /api/predict. -/
inductive PredictResp where
  | ok200 : PredictionResult → PredictResp
  | badRequest : String → PredictResp
  | internalError : PredictResp
deriving DecidableEq

/-- POST /api/predict (`server/routes.ts` lines 156-165): parse, then
compute; a ZodError yields 400 with `err.errors[0]`. -/
def predictHandler (body : JsonBody) : PredictResp :=
  match parsePredictRequest body with
  | Except.error (e :: _) => PredictResp.badRequest e
  | Except.error [] => PredictResp.internalError
  | Except.ok input => PredictResp.ok200 (calcPrediction (reqParams input))

/-- The HTTP outcome of POST /api/montecarlo. -/
inductive McResp where
  | ok200 : SimulationResult → McResp
  | badRequest : String → McResp
  | internalError : McResp
deriving DecidableEq

/-- POST /api/montecarlo (`server/routes.ts` lines 168-205): parse, then
simulate; a ZodError yields 400 with `err.errors[0]`. -/
def monteCarloHandler (body : JsonBody) (draws : List Trial) : McResp :=
  match parsePredictRequest body with
  | Except.error (e :: _) => McResp.badRequest e
  | Except.error [] => McResp.internalError
  | Except.ok input => McResp.ok200 (monteCarloSim input.aircraftType draws)

/-! ## Auxiliary definitions used by the statements and proofs -/

/-- The specification's bottleneck policy, stated from its words: the
strictly-greater maximum of (baggage, fuel, catering) evaluated in that fixed
order, ties resolving to the earlier-evaluated candidate (baggage beats fuel
on a tie; fuel beats catering on a tie). -/
def specBottleneck (b f c : ℤ) : String :=
  if b ≥ f ∧ b ≥ c then "BAGGAGE"
  else if f > b ∧ f ≥ c then "FUEL"
  else "CATERING"

/-- The DIVERTED sublist of a flight list. -/
def divertedOf (fl : List Flight) : List Flight :=
  fl.filter (fun f => f.status = "DIVERTED")

/-- The id column of a flight list. -/
def idsOf (fl : List Flight) : List ℕ := fl.map Flight.id

/-- The observation of a flight row the crisis transitions never change:
its id, status and estimator parameters. -/
def Flight.core (f : Flight) : ℕ × String × CalcParams := (f.id, f.status, f.params)

/-- The core columns of a flight list. -/
def coresOf (fl : List Flight) : List (ℕ × String × CalcParams) := fl.map Flight.core

/-- Database well-formedness: the serial `flights.id` primary key — every id
is below the sequence value and ids are pairwise distinct. -/
def WF (s : DbState) : Prop :=
  (∀ x ∈ idsOf s.flights, x < s.nextFlightId) ∧ (idsOf s.flights).Nodup

/-- Some flight is DIVERTED. -/
def HasDiverted (fl : List Flight) : Prop := ∃ f ∈ fl, f.status = "DIVERTED"

/-- A domestic flight of the C1 failing input: SCHEDULED, Narrow, domestic
penalty rate, no bags/meals/safety so that the fuel duration is the whole
variable part of the TAT. -/
def c1flight (i : ℕ) (fuel : ℤ) : Flight :=
  { blankFlight with
      id := i, flightNumber := toString i, status := "SCHEDULED", fuelLiters := fuel,
      cateringRequired := false, safetyCheck := false, aircraftType := "Narrow" }

/-- The C1 failing input: three domestic flights whose manual fuel durations
are 10, 14 and 8 minutes (fuel 5000, 7000, 4000 litres at 500 L/min), plus a
pre-existing diverted flight so that activation runs only the domestic
queue loop. -/
def c1state : DbState :=
  ⟨[c1flight 1 5000, c1flight 2 7000, c1flight 3 4000,
    { blankFlight with id := 4, status := "DIVERTED", penaltyRatePerMin := 15000 }],
   [], none, 5⟩

/-- A predict request carrying a non-default penalty rate (15000) whose
predicted TAT exceeds the Narrow target: Narrow, 10000 L, 100 bags, no
catering or safety check. -/
def c2request : PredictRequest :=
  ⟨"AA-1", "AA", "Narrow", "t", 0, 10000, 100, 0, 0, 0, false, false, false, 15000⟩

/-! ## General lemmas -/

/-- Evaluation helper for `jsRound` at concrete rationals. -/
theorem jsRound_eq_of {q : ℚ} {n : ℤ} (h1 : (n : ℚ) ≤ q + 1/2) (h2 : q + 1/2 < n + 1) :
    jsRound q = n := by
  unfold jsRound
  exact Int.floor_eq_iff.mpr ⟨h1, by exact_mod_cast h2⟩

/-- The deactivation recompute agrees with `calcPrediction` on the flight's
own parameters: both are the normal-hydrant formulas. -/
theorem deactRecalc_eq (f : Flight) :
    deactRecalc f =
      ((calcPrediction f.params).predictedTat, (calcPrediction f.params).penaltyRisk,
        (calcPrediction f.params).bottleneck) := rfl

/-- The bottleneck field of `calcPrediction` is `calcBottleneck` of its three
variable durations. -/
theorem calcPrediction_bottleneck (p : CalcParams) :
    (calcPrediction p).bottleneck =
      calcBottleneck (calcPrediction p).baggageDuration (calcPrediction p).fuelDuration
        (calcPrediction p).cateringDuration := rfl

/-! ## Claims C3, C4, C10, C2 -/

/-- C3: every PredictionResult produced by the system (the predict endpoint,
seeding and CSV import all call `calcPrediction`; the crisis-deactivation
recompute computes the same formulas) satisfies
predictedTat = baggageDuration + fuelDuration + cateringDuration +
safetyCheckDuration + 10. -/
theorem c3_predictedTat_sum_invariant :
    (∀ p : CalcParams,
      (calcPrediction p).predictedTat =
        (calcPrediction p).baggageDuration + (calcPrediction p).fuelDuration +
          (calcPrediction p).cateringDuration + (calcPrediction p).safetyCheckDuration + 10) ∧
    (∀ f : Flight, (deactRecalc f).1 = (calcPrediction f.params).predictedTat) :=
  ⟨fun _ => rfl, fun _ => rfl⟩

/-- C4: the estimator's bottleneck is the strictly-greater maximum of
baggage, fuel and catering durations evaluated in that fixed order with ties
resolving to the earlier candidate (`specBottleneck` states the policy in
the specification's words); in particular equal baggage and fuel durations
both exceeding catering report BAGGAGE. -/
theorem c4_bottleneck_tie_break :
    (∀ b f c : ℤ, calcBottleneck b f c = specBottleneck b f c) ∧
    (∀ p : CalcParams,
      (calcPrediction p).baggageDuration = (calcPrediction p).fuelDuration →
      (calcPrediction p).cateringDuration < (calcPrediction p).baggageDuration →
      (calcPrediction p).bottleneck = "BAGGAGE") := by
  have htot : ∀ b f c : ℤ, calcBottleneck b f c = specBottleneck b f c := by
    intro b f c
    simp only [calcBottleneck, specBottleneck]
    split_ifs <;> first | rfl | omega
  refine ⟨htot, fun p h1 h2 => ?_⟩
  rw [calcPrediction_bottleneck, htot]
  unfold specBottleneck
  rw [if_pos ⟨h1.ge, h2.le⟩]

/-- Witness for C4 at a concrete input: 200 bags and 15000 litres give equal
baggage and fuel durations of 30 minutes, catering 0, and the reported
bottleneck is BAGGAGE. -/
theorem c4_bottleneck_tie_break_witness :
    (calcPrediction ⟨200, 0, 15000, 0, 0, false, false, "Narrow"⟩).baggageDuration =
      (calcPrediction ⟨200, 0, 15000, 0, 0, false, false, "Narrow"⟩).fuelDuration ∧
    (calcPrediction ⟨200, 0, 15000, 0, 0, false, false, "Narrow"⟩).cateringDuration <
      (calcPrediction ⟨200, 0, 15000, 0, 0, false, false, "Narrow"⟩).baggageDuration ∧
    (calcPrediction ⟨200, 0, 15000, 0, 0, false, false, "Narrow"⟩).bottleneck = "BAGGAGE" := by
  have hb : (calcPrediction ⟨200, 0, 15000, 0, 0, false, false, "Narrow"⟩).baggageDuration = 30 :=
    jsRound_eq_of (by norm_num) (by norm_num)
  have hf : (calcPrediction ⟨200, 0, 15000, 0, 0, false, false, "Narrow"⟩).fuelDuration = 30 :=
    jsRound_eq_of (by norm_num) (by norm_num)
  have hc : (calcPrediction ⟨200, 0, 15000, 0, 0, false, false, "Narrow"⟩).cateringDuration = 0 :=
    rfl
  have h1 := hb.trans hf.symm
  have h2 : (calcPrediction ⟨200, 0, 15000, 0, 0, false, false, "Narrow"⟩).cateringDuration <
      (calcPrediction ⟨200, 0, 15000, 0, 0, false, false, "Narrow"⟩).baggageDuration := by
    rw [hc, hb]; norm_num
  exact ⟨h1, h2, c4_bottleneck_tie_break.2 _ h1 h2⟩

/-- C10: the estimator's bottleneck is always one of BAGGAGE, FUEL or
CATERING, never "none" or empty; with all three variable durations equal —
in particular for the all-zero input (no bags, no fuel, no catering, no
safety check) — it is BAGGAGE. -/
theorem c10_bottleneck_total :
    (∀ b f c : ℤ, calcBottleneck b f c = "BAGGAGE" ∨ calcBottleneck b f c = "FUEL" ∨
      calcBottleneck b f c = "CATERING") ∧
    (∀ p : CalcParams, ¬ (calcPrediction p).bottleneck = "none" ∧
      ¬ (calcPrediction p).bottleneck = "") ∧
    (∀ b f c : ℤ, b = f → f = c → calcBottleneck b f c = "BAGGAGE") ∧
    (calcPrediction ⟨0, 0, 0, 0, 0, false, false, "Narrow"⟩).bottleneck = "BAGGAGE" := by
  have htot : ∀ b f c : ℤ, calcBottleneck b f c = "BAGGAGE" ∨ calcBottleneck b f c = "FUEL" ∨
      calcBottleneck b f c = "CATERING" := by
    intro b f c
    simp only [calcBottleneck]
    split_ifs <;> simp
  have htie : ∀ b f c : ℤ, b = f → f = c → calcBottleneck b f c = "BAGGAGE" := by
    intro b f c h1 h2
    subst h1; subst h2
    simp only [calcBottleneck]
    split_ifs <;> first | rfl | omega
  refine ⟨htot, fun p => ?_, htie, ?_⟩
  · rw [calcPrediction_bottleneck]
    rcases htot (calcPrediction p).baggageDuration (calcPrediction p).fuelDuration
        (calcPrediction p).cateringDuration with h | h | h <;>
      rw [h] <;> exact ⟨by decide, by decide⟩
  · have hb : (calcPrediction ⟨0, 0, 0, 0, 0, false, false, "Narrow"⟩).baggageDuration = 0 :=
      jsRound_eq_of (by norm_num) (by norm_num)
    have hf : (calcPrediction ⟨0, 0, 0, 0, 0, false, false, "Narrow"⟩).fuelDuration = 0 :=
      jsRound_eq_of (by norm_num) (by norm_num)
    have hc : (calcPrediction ⟨0, 0, 0, 0, 0, false, false, "Narrow"⟩).cateringDuration = 0 :=
      rfl
    rw [calcPrediction_bottleneck, hb, hf, hc]
    exact htie 0 0 0 rfl rfl

/-- Witness for C10's tie clause at the concrete durations (0, 0, 0). -/
theorem c10_bottleneck_total_witness :
    (0 : ℤ) = 0 ∧ (0 : ℤ) = 0 ∧ calcBottleneck 0 0 0 = "BAGGAGE" :=
  ⟨rfl, rfl, c10_bottleneck_total.2.2.1 0 0 0 rfl rfl⟩

/-- C2 (amended): in the predict and Monte Carlo handlers the penalty is
`max(0, tat - targetTat) * 5400` with the constant rate 5400 — the
request's `penaltyRatePerMin` is ignored there (targetTat is 60 for Wide,
35 otherwise). -/
theorem c2_penalty_flat_rate :
    ∀ (r : PredictRequest) (draws : List Trial),
      (calcPrediction (reqParams r)).penaltyRisk =
        max 0 ((calcPrediction (reqParams r)).predictedTat -
          (if r.aircraftType = "Wide" then 60 else 35)) * 5400 ∧
      (monteCarloSim r.aircraftType draws).p50Penalty =
        max 0 ((monteCarloSim r.aircraftType draws).p50 -
          (if r.aircraftType = "Wide" then 60 else 35)) * 5400 ∧
      (monteCarloSim r.aircraftType draws).p75Penalty =
        max 0 ((monteCarloSim r.aircraftType draws).p75 -
          (if r.aircraftType = "Wide" then 60 else 35)) * 5400 ∧
      (monteCarloSim r.aircraftType draws).p90Penalty =
        max 0 ((monteCarloSim r.aircraftType draws).p90 -
          (if r.aircraftType = "Wide" then 60 else 35)) * 5400 :=
  fun _ _ => ⟨rfl, rfl, rfl, rfl⟩

/-- Counterexample for C2 as stated: a predict request carrying
penaltyRatePerMin = 15000 gets predictedTat 45, target 35, and the computed
penalty is 10 * 5400 = 54000, not 10 * 15000 as the claimed formula with the
request's rate would give. -/
theorem c2_penalty_rate_counterexample :
    (calcPrediction (reqParams c2request)).predictedTat = 45 ∧
    (calcPrediction (reqParams c2request)).penaltyRisk = 54000 ∧
    ¬ (((calcPrediction (reqParams c2request)).penaltyRisk : ℚ) =
        max 0 (((calcPrediction (reqParams c2request)).predictedTat : ℚ) - 35) *
          c2request.penaltyRatePerMin) := by
  have hb : jsRound ((100 : ℚ) * 0.15 + (0 : ℚ) * 0.1) = 15 :=
    jsRound_eq_of (by norm_num) (by norm_num)
  have hf : jsRound ((10000 : ℚ) * 0.002) = 20 :=
    jsRound_eq_of (by norm_num) (by norm_num)
  have ht : (calcPrediction (reqParams c2request)).predictedTat = 45 := by
    show jsRound ((100 : ℚ) * 0.15 + (0 : ℚ) * 0.1) + jsRound ((10000 : ℚ) * 0.002) +
        0 + 0 + 10 = 45
    rw [hb, hf]
    norm_num
  have hpen : (calcPrediction (reqParams c2request)).penaltyRisk =
      max 0 ((calcPrediction (reqParams c2request)).predictedTat - 35) * 5400 := rfl
  rw [ht] at hpen
  norm_num at hpen
  refine ⟨ht, hpen, ?_⟩
  rw [ht, hpen]
  show ¬ ((54000 : ℚ) = max 0 ((45 : ℚ) - 35) * (15000 : ℚ))
  rw [show ((45 : ℚ) - 35) = 10 by norm_num,
    max_eq_right (by norm_num : (0 : ℚ) ≤ 10)]
  norm_num

/-! ## Claim C9 -/

/-- C9: for every predict or Monte Carlo request, either validation fails —
then both handlers answer 400 carrying the first failing field's issue
(`err.errors[0]`, the head of the schema-ordered issue list) and no
estimator computation is reached — or validation succeeds and the handlers
answer 200 with the estimator/simulator output; no other outcome exists.
Request bodies are parsed JSON, where non-finite numbers are not
representable, so an invalid numeric field is precisely a wrongly-typed or
missing one. -/
theorem c9_validation_first_error :
    ∀ (body : JsonBody) (draws : List Trial),
      (∃ e rest, parsePredictRequest body = Except.error (e :: rest) ∧
        requestIssues body = e :: rest ∧
        predictHandler body = PredictResp.badRequest e ∧
        monteCarloHandler body draws = McResp.badRequest e) ∨
      (∃ input, parsePredictRequest body = Except.ok input ∧
        predictHandler body = PredictResp.ok200 (calcPrediction (reqParams input)) ∧
        monteCarloHandler body draws = McResp.ok200 (monteCarloSim input.aircraftType draws)) := by
  intro body draws
  by_cases hi : requestIssues body = []
  · right
    have hp : parsePredictRequest body =
        Except.ok
          ⟨(checkStr body "flightNumber").getD "", (checkStr body "airline").getD "",
            (checkStr body "aircraftType").getD "", (checkStr body "arrivalTime").getD "",
            (checkNumOpt body "arrivalDelay" 0).getD 0, (checkNumReq body "fuelLiters").getD 0,
            (checkNumReq body "bagsCount").getD 0, (checkNumOpt body "priorityBags" 0).getD 0,
            (checkNumReq body "mealsQty").getD 0, (checkNumOpt body "specialMeals" 0).getD 0,
            (checkBoolOpt body "cateringRequired" true).getD true,
            (checkBoolOpt body "safetyCheck" true).getD true,
            (checkBoolOpt body "fuelCrisisActive" false).getD false,
            (checkNumOpt body "penaltyRatePerMin" 5400).getD 5400⟩ := by
      unfold parsePredictRequest
      rw [if_pos hi]
    exact ⟨_, hp, by unfold predictHandler; rw [hp], by unfold monteCarloHandler; rw [hp]⟩
  · left
    have hp : parsePredictRequest body = Except.error (requestIssues body) := by
      unfold parsePredictRequest
      rw [if_neg hi]
    rcases he : requestIssues body with _ | ⟨e, rest⟩
    · exact absurd he hi
    · rw [he] at hp
      refine ⟨e, rest, hp, ?_, by unfold predictHandler; rw [hp], by
        unfold monteCarloHandler; rw [hp]⟩
      first | exact he | rfl

/-! ## Histogram lemmas (claims C7 and C8) -/

/-- Keys of the histogram map are untouched by the in-place count bump. -/
theorem histBump_keys (m : List (ℤ × ℤ)) (b : ℤ) :
    (m.map (fun p => if p.1 = b then (p.1, p.2 + 1) else p)).map Prod.fst = m.map Prod.fst := by
  rw [List.map_map]
  apply List.map_congr_left
  intro p _
  by_cases h : p.1 = b <;> simp [h]

/-- Bumping an existing key adds exactly one to the total count when keys
are distinct. -/
theorem histBump_sum {m : List (ℤ × ℤ)} {b : ℤ} (hnd : (m.map Prod.fst).Nodup)
    (hin : b ∈ m.map Prod.fst) :
    ((m.map (fun p => if p.1 = b then (p.1, p.2 + 1) else p)).map Prod.snd).sum =
      (m.map Prod.snd).sum + 1 := by
  induction m with
  | nil => simp at hin
  | cons q rest ih =>
      rw [List.map_cons, List.nodup_cons] at hnd
      rw [List.map_cons, List.mem_cons] at hin
      by_cases hq : q.1 = b
      · have hrest : rest.map (fun p => if p.1 = b then (p.1, p.2 + 1) else p) = rest := by
          have h1 : rest.map (fun p => if p.1 = b then (p.1, p.2 + 1) else p) =
              rest.map id := by
            apply List.map_congr_left
            intro r hr
            have hrb : ¬ r.1 = b := by
              intro h
              apply hnd.1
              have hqr : q.1 = r.1 := hq.trans h.symm
              rw [hqr]
              exact List.mem_map_of_mem Prod.fst hr
            exact if_neg hrb
          rw [h1, List.map_id]
        rw [List.map_cons, hrest, if_pos hq, List.map_cons, List.sum_cons,
          List.map_cons, List.sum_cons]
        show q.2 + 1 + (rest.map Prod.snd).sum = q.2 + (rest.map Prod.snd).sum + 1
        ring
      · have hb : b ∈ rest.map Prod.fst := by
          rcases hin with h | h
          · exact absurd h.symm hq
          · exact h
        rw [List.map_cons, if_neg hq, List.map_cons, List.sum_cons, ih hnd.2 hb,
          List.map_cons, List.sum_cons]
        ring

/-- One `histInsert` step preserves the histogram-map invariant: distinct
keys, each value the occurrence count of its key among the processed bins
(and positive), keys exactly the processed bins; and it adds one to the
total count. -/
theorem histInsert_invariant {bins : List ℤ} {m : List (ℤ × ℤ)} (b : ℤ)
    (hnd : (m.map Prod.fst).Nodup)
    (hcnt : ∀ p ∈ m, p.2 = (bins.count p.1 : ℤ) ∧ 0 < p.2)
    (hmem : ∀ x : ℤ, x ∈ m.map Prod.fst ↔ x ∈ bins) :
    ((histInsert m b).map Prod.fst).Nodup ∧
    (∀ p ∈ histInsert m b, p.2 = ((bins ++ [b]).count p.1 : ℤ) ∧ 0 < p.2) ∧
    (∀ x : ℤ, x ∈ (histInsert m b).map Prod.fst ↔ x ∈ bins ++ [b]) ∧
    ((histInsert m b).map Prod.snd).sum = (m.map Prod.snd).sum + 1 := by
  by_cases hany : b ∈ m.map Prod.fst
  · have hin : m.any (fun p => p.1 = b) = true := by
      rcases List.mem_map.mp hany with ⟨p, hp, hpb⟩
      exact List.any_eq_true.mpr ⟨p, hp, by simpa using hpb⟩
    unfold histInsert
    rw [if_pos hin]
    refine ⟨by rw [histBump_keys]; exact hnd, ?_, ?_, histBump_sum hnd hany⟩
    · intro p' hp'
      rcases List.mem_map.mp hp' with ⟨p, hp, hpe⟩
      rcases hcnt p hp with ⟨hc, hcpos⟩
      by_cases hpb : p.1 = b
      · rw [if_pos hpb] at hpe
        subst hpe
        have hcount : List.count p.1 (bins ++ [b]) = List.count p.1 bins + 1 := by
          rw [List.count_append, hpb]
          simp
        show p.2 + 1 = (List.count p.1 (bins ++ [b]) : ℤ) ∧ 0 < p.2 + 1
        rw [hcount]
        push_cast
        omega
      · rw [if_neg hpb] at hpe
        subst hpe
        have hcount : List.count p.1 (bins ++ [b]) = List.count p.1 bins := by
          rw [List.count_append]
          have : List.count p.1 [b] = 0 := by simp [hpb]
          rw [this]
          omega
        rw [hcount]
        exact ⟨hc, hcpos⟩
    · intro x
      rw [histBump_keys, hmem]
      by_cases hxb : x = b
      · subst hxb
        simp only [List.mem_append, List.mem_singleton]
        exact ⟨fun h => Or.inl h, fun _ => (hmem x).mp hany⟩
      · simp [hxb]
  · have hout : ¬ m.any (fun p => p.1 = b) = true := by
      intro h
      rcases List.any_eq_true.mp h with ⟨p, hp, hpb⟩
      exact hany (List.mem_map.mpr ⟨p, hp, by simpa using hpb⟩)
    unfold histInsert
    rw [if_neg hout]
    have hbnotbins : b ∉ bins := fun hb => hany ((hmem b).mpr hb)
    refine ⟨?_, ?_, ?_, by simp⟩
    · rw [List.map_append]
      refine List.Nodup.append hnd (by simp) ?_
      intro x hx hx2
      simp only [List.map_cons, List.map_nil, List.mem_singleton] at hx2
      subst hx2
      exact hany hx
    · intro p hp
      rcases List.mem_append.mp hp with hp | hp
      · rcases hcnt p hp with ⟨hc, hcpos⟩
        have hpb : p.1 ≠ b := by
          intro hpb
          exact hany (List.mem_map.mpr ⟨p, hp, hpb⟩)
        have hcount : List.count p.1 (bins ++ [b]) = List.count p.1 bins := by
          rw [List.count_append]
          have : List.count p.1 [b] = 0 := by simp [hpb]
          rw [this]
          omega
        rw [hcount]
        exact ⟨hc, hcpos⟩
      · simp only [List.mem_singleton] at hp
        subst hp
        have h0 : List.count b bins = 0 := List.count_eq_zero.mpr hbnotbins
        show (1 : ℤ) = (List.count b (bins ++ [b]) : ℤ) ∧ (0 : ℤ) < 1
        rw [List.count_append, h0]
        simp
    · intro x
      rw [List.map_append]
      simp only [List.mem_append, List.mem_singleton, List.map_cons, List.map_nil]
      rw [hmem]

/-- The histogram-map fold invariant over a list of trial values. -/
theorem histFold_invariant :
    ∀ (l : List ℤ) (bins : List ℤ) (m : List (ℤ × ℤ)),
      (m.map Prod.fst).Nodup →
      (∀ p ∈ m, p.2 = (bins.count p.1 : ℤ) ∧ 0 < p.2) →
      (∀ x : ℤ, x ∈ m.map Prod.fst ↔ x ∈ bins) →
      (((l.foldl (fun m r => histInsert m (binOf r)) m).map Prod.fst).Nodup ∧
       (∀ p ∈ l.foldl (fun m r => histInsert m (binOf r)) m,
          p.2 = ((bins ++ l.map binOf).count p.1 : ℤ) ∧ 0 < p.2) ∧
       (∀ x : ℤ, x ∈ (l.foldl (fun m r => histInsert m (binOf r)) m).map Prod.fst ↔
          x ∈ bins ++ l.map binOf) ∧
       ((l.foldl (fun m r => histInsert m (binOf r)) m).map Prod.snd).sum =
          (m.map Prod.snd).sum + l.length) := by
  intro l
  induction l with
  | nil =>
      intro bins m hnd hcnt hmem
      simp only [List.foldl_nil, List.map_nil, List.append_nil, List.length_nil,
        Nat.cast_zero, add_zero]
      exact ⟨hnd, hcnt, hmem, by trivial⟩
  | cons r rest ih =>
      intro bins m hnd hcnt hmem
      obtain ⟨hnd1, hcnt1, hmem1, hsum1⟩ := histInsert_invariant (binOf r) hnd hcnt hmem
      obtain ⟨hnd2, hcnt2, hmem2, hsum2⟩ :=
        ih (bins ++ [binOf r]) (histInsert m (binOf r)) hnd1 hcnt1 hmem1
      have hre : bins ++ [binOf r] ++ rest.map binOf = bins ++ (r :: rest).map binOf := by
        simp [List.append_assoc]
      rw [hre] at hcnt2 hmem2
      refine ⟨hnd2, hcnt2, hmem2, ?_⟩
      simp only [List.foldl_cons, hsum2, hsum1, List.length_cons]
      push_cast
      ring

/-- The accumulated histogram map of a results list: distinct keys, each
count the number of results falling in that bin (positive), keys exactly
the occupied bins, counts summing to the number of results. -/
theorem histogramMap_spec (l : List ℤ) :
    ((histogramMap l).map Prod.fst).Nodup ∧
    (∀ p ∈ histogramMap l, p.2 = ((l.map binOf).count p.1 : ℤ) ∧ 0 < p.2) ∧
    (∀ x : ℤ, x ∈ (histogramMap l).map Prod.fst ↔ x ∈ l.map binOf) ∧
    ((histogramMap l).map Prod.snd).sum = l.length := by
  have h := histFold_invariant l [] [] (by simp) (by simp) (by simp)
  rw [List.nil_append] at h
  simp only [List.map_nil, List.sum_nil, zero_add] at h
  exact h

/-! ## Percentile lemmas and claims C7, C8 -/

theorem percentileIdx_half : percentileIdx 0.5 = 500 := by
  unfold percentileIdx simulations
  rw [show ((1000 : ℕ) : ℚ) * 0.5 = ((500 : ℤ) : ℚ) by norm_num, Int.floor_intCast]
  rfl

theorem percentileIdx_threequarters : percentileIdx 0.75 = 750 := by
  unfold percentileIdx simulations
  rw [show ((1000 : ℕ) : ℚ) * 0.75 = ((750 : ℤ) : ℚ) by norm_num, Int.floor_intCast]
  rfl

theorem percentileIdx_ninetenths : percentileIdx 0.9 = 900 := by
  unfold percentileIdx simulations
  rw [show ((1000 : ℕ) : ℚ) * 0.9 = ((900 : ℤ) : ℚ) by norm_num, Int.floor_intCast]
  rfl

/-- Indexing an ascending-sorted list is monotone. -/
theorem sorted_getD_mono {l : List ℤ} (hs : List.Sorted (fun a b : ℤ => a ≤ b) l)
    {i j : ℕ} (hij : i ≤ j) (hj : j < l.length) : l.getD i 0 ≤ l.getD j 0 := by
  have hi : i < l.length := lt_of_le_of_lt hij hj
  rw [List.getD_eq_getElem l 0 hi, List.getD_eq_getElem l 0 hj]
  have h := List.Sorted.rel_get_of_le hs
    (show (⟨i, hi⟩ : Fin l.length) ≤ ⟨j, hj⟩ from hij)
  simpa using h

/-- C7: for every Monte Carlo run over 1000 trials, whatever the random
draws, the reported percentiles are the order statistics at indices 500,
750, 900 of the ascending-sorted trial TATs, hence p50 ≤ p75 ≤ p90; and the
histogram counts sum to exactly 1000. -/
theorem c7_percentiles_and_histogram_total :
    ∀ (aty : String) (draws : List Trial), draws.length = simulations →
      ((monteCarloSim aty draws).p50 ≤ (monteCarloSim aty draws).p75 ∧
       (monteCarloSim aty draws).p75 ≤ (monteCarloSim aty draws).p90) ∧
      (((monteCarloSim aty draws).histogramData).map Prod.snd).sum = 1000 := by
  intro aty draws hlen
  have hlen2 : (mcResults draws).length = 1000 := by
    rw [mcResults, List.length_map]
    exact hlen
  have hslen : (sortedResults (mcResults draws)).length = 1000 := by
    rw [sortedResults, (List.perm_insertionSort _ _).length_eq]
    exact hlen2
  have hs : List.Sorted (fun a b : ℤ => a ≤ b) (sortedResults (mcResults draws)) :=
    List.sorted_insertionSort _ _
  have hp50 : (monteCarloSim aty draws).p50 =
      (sortedResults (mcResults draws)).getD (percentileIdx 0.5) 0 := rfl
  have hp75 : (monteCarloSim aty draws).p75 =
      (sortedResults (mcResults draws)).getD (percentileIdx 0.75) 0 := rfl
  have hp90 : (monteCarloSim aty draws).p90 =
      (sortedResults (mcResults draws)).getD (percentileIdx 0.9) 0 := rfl
  constructor
  · rw [hp50, hp75, hp90, percentileIdx_half, percentileIdx_threequarters,
      percentileIdx_ninetenths]
    constructor
    · exact sorted_getD_mono hs (by norm_num) (by rw [hslen]; norm_num)
    · exact sorted_getD_mono hs (by norm_num) (by rw [hslen]; norm_num)
  · have hhd : (monteCarloSim aty draws).histogramData =
        histogramData (sortedResults (mcResults draws)) := rfl
    rw [hhd, histogramData]
    have hperm : List.Perm
        (List.insertionSort binLE (histogramMap (sortedResults (mcResults draws))))
        (histogramMap (sortedResults (mcResults draws))) :=
      List.perm_insertionSort _ _
    rw [(hperm.map Prod.snd).sum_eq,
      (histogramMap_spec (sortedResults (mcResults draws))).2.2.2, hslen]
    rfl

/-- Witness for C7 at 1000 constant trials. -/
theorem c7_percentiles_and_histogram_total_witness :
    (List.replicate 1000 (⟨0, 0, 0, 0⟩ : Trial)).length = simulations ∧
    (((monteCarloSim "Narrow" (List.replicate 1000 ⟨0, 0, 0, 0⟩)).p50 ≤
        (monteCarloSim "Narrow" (List.replicate 1000 ⟨0, 0, 0, 0⟩)).p75 ∧
      (monteCarloSim "Narrow" (List.replicate 1000 ⟨0, 0, 0, 0⟩)).p75 ≤
        (monteCarloSim "Narrow" (List.replicate 1000 ⟨0, 0, 0, 0⟩)).p90) ∧
     (((monteCarloSim "Narrow" (List.replicate 1000 ⟨0, 0, 0, 0⟩)).histogramData).map
        Prod.snd).sum = 1000) :=
  ⟨by rw [List.length_replicate]; rfl,
   c7_percentiles_and_histogram_total "Narrow" _ (by rw [List.length_replicate]; rfl)⟩

/-- C8: each trial TAT value v is counted in the histogram bin
floor(v / 2) * 2 (47 falls in bin 46, 48 in bin 48), every emitted count is
positive and counts the results in its bin, emitted bins are occupied, and
the (bin, count) pairs are strictly ascending by bin. -/
theorem c8_histogram_binning :
    (binOf 47 = 46 ∧ binOf 48 = 48) ∧
    ∀ (aty : String) (draws : List Trial),
      (∀ v ∈ mcResults draws, ∃ c : ℤ,
        (binOf v, c) ∈ (monteCarloSim aty draws).histogramData ∧
        c = (((mcResults draws).map binOf).count (binOf v) : ℤ) ∧ 0 < c) ∧
      ((monteCarloSim aty draws).histogramData).Pairwise (fun p q => p.1 < q.1) ∧
      (∀ p ∈ (monteCarloSim aty draws).histogramData,
        0 < p.2 ∧ p.1 ∈ (mcResults draws).map binOf) := by
  refine ⟨⟨by decide, by decide⟩, ?_⟩
  intro aty draws
  have hresperm : List.Perm (sortedResults (mcResults draws)) (mcResults draws) :=
    List.perm_insertionSort _ _
  have hbinperm : List.Perm ((sortedResults (mcResults draws)).map binOf)
      ((mcResults draws).map binOf) :=
    hresperm.map binOf
  obtain ⟨hnd, hcnt, hmem, _⟩ := histogramMap_spec (sortedResults (mcResults draws))
  have hhd : (monteCarloSim aty draws).histogramData =
      histogramData (sortedResults (mcResults draws)) := rfl
  have hdperm : List.Perm (histogramData (sortedResults (mcResults draws)))
      (histogramMap (sortedResults (mcResults draws))) :=
    List.perm_insertionSort _ _
  refine ⟨?_, ?_, ?_⟩
  · intro v hv
    have hv2 : v ∈ sortedResults (mcResults draws) := hresperm.mem_iff.mpr hv
    have hbin : binOf v ∈ (sortedResults (mcResults draws)).map binOf :=
      List.mem_map_of_mem binOf hv2
    have hkey : binOf v ∈ (histogramMap (sortedResults (mcResults draws))).map Prod.fst :=
      (hmem (binOf v)).mpr hbin
    rcases List.mem_map.mp hkey with ⟨p, hp, hpk⟩
    refine ⟨p.2, ?_, ?_, (hcnt p hp).2⟩
    · rw [hhd]
      have : (binOf v, p.2) = p := by
        rw [← hpk]

      rw [this]
      exact hdperm.mem_iff.mpr hp
    · rw [(hcnt p hp).1, hpk]
      exact_mod_cast hbinperm.count_eq (binOf v)
  · rw [hhd]
    have hsorted : List.Sorted binLE (histogramData (sortedResults (mcResults draws))) :=
      List.sorted_insertionSort _ _
    have hndkeys : ((histogramData (sortedResults (mcResults draws))).map Prod.fst).Nodup :=
      ((hdperm.map Prod.fst).nodup_iff).mpr hnd
    have hne : (histogramData (sortedResults (mcResults draws))).Pairwise
        (fun p q => p.1 ≠ q.1) := List.pairwise_map.mp hndkeys
    have hle : (histogramData (sortedResults (mcResults draws))).Pairwise binLE := hsorted
    exact (hle.and hne).imp (fun h => lt_of_le_of_ne h.1 h.2)
  · intro p hp
    rw [hhd] at hp
    have hp2 : p ∈ histogramMap (sortedResults (mcResults draws)) := hdperm.mem_iff.mp hp
    refine ⟨(hcnt p hp2).2, ?_⟩
    have : p.1 ∈ (sortedResults (mcResults draws)).map binOf :=
      (hmem p.1).mp (List.mem_map_of_mem Prod.fst hp2)
    exact hbinperm.mem_iff.mp this

/-- Witness for C8: in a run of 1000 identical trials, the (unique) trial
TAT's bin carries a positive count equal to its number of occurrences. -/
theorem c8_histogram_binning_witness :
    trialTat ⟨0, 0, 0, 0⟩ ∈ mcResults (List.replicate 1000 (⟨0, 0, 0, 0⟩ : Trial)) ∧
    ∃ c : ℤ,
      (binOf (trialTat ⟨0, 0, 0, 0⟩), c) ∈
        (monteCarloSim "Narrow" (List.replicate 1000 (⟨0, 0, 0, 0⟩ : Trial))).histogramData ∧
      c = (((mcResults (List.replicate 1000 (⟨0, 0, 0, 0⟩ : Trial))).map binOf).count
            (binOf (trialTat ⟨0, 0, 0, 0⟩)) : ℤ) ∧ 0 < c := by
  have hmem : trialTat ⟨0, 0, 0, 0⟩ ∈ mcResults (List.replicate 1000 (⟨0, 0, 0, 0⟩ : Trial)) := by
    rw [mcResults]
    exact List.mem_map_of_mem trialTat (List.mem_replicate.mpr (by norm_num))
  exact ⟨hmem, (c8_histogram_binning.2 "Narrow" _).1 _ hmem⟩

/-! ## State-machine lemmas (claims C5, C6, C1) -/

theorem flights_updateGateWith (s : DbState) (gid : ℕ) (p : Gate → Gate) :
    (updateGateWith s gid p).flights = s.flights := rfl

theorem gates_updateFlightWith (s : DbState) (fid : ℕ) (p : Flight → Flight) :
    (updateFlightWith s fid p).gates = s.gates := rfl

theorem nextId_updateFlightWith (s : DbState) (fid : ℕ) (p : Flight → Flight) :
    (updateFlightWith s fid p).nextFlightId = s.nextFlightId := rfl

theorem nextId_updateGateWith (s : DbState) (gid : ℕ) (p : Gate → Gate) :
    (updateGateWith s gid p).nextFlightId = s.nextFlightId := rfl

theorem flights_activateFuelCrisis (now : ℤ) (s : DbState) :
    (activateFuelCrisis now s).flights = s.flights := by
  unfold activateFuelCrisis
  split <;> rfl

theorem nextId_activateFuelCrisis (now : ℤ) (s : DbState) :
    (activateFuelCrisis now s).nextFlightId = s.nextFlightId := by
  unfold activateFuelCrisis
  split <;> rfl

/-- Mapping a core-preserving function over a flight list keeps the cores. -/
theorem coresOf_map (fl : List Flight) (F : Flight → Flight)
    (hF : ∀ g, (F g).core = g.core) : coresOf (fl.map F) = coresOf fl := by
  rw [coresOf, coresOf, List.map_map]
  exact List.map_congr_left (fun a _ => hF a)

/-- Ids are the first component of the cores. -/
theorem idsOf_eq_coresOf (fl : List Flight) : idsOf fl = (coresOf fl).map Prod.fst := by
  rw [idsOf, coresOf, List.map_map]
  rfl

/-- The conditional update applied by `updateFlightWith` preserves cores
whenever the patch does. -/
theorem patchIf_core {fid : ℕ} {p : Flight → Flight} (hp : ∀ g, (p g).core = g.core)
    (g : Flight) : (if g.id = fid then p g else g).core = g.core := by
  by_cases h : g.id = fid
  · rw [if_pos h]; exact hp g
  · rw [if_neg h]

theorem coresOf_updateFlightWith (s : DbState) (fid : ℕ) (p : Flight → Flight)
    (hp : ∀ g, (p g).core = g.core) :
    coresOf (updateFlightWith s fid p).flights = coresOf s.flights :=
  coresOf_map s.flights _ (patchIf_core hp)

theorem coresOf_createFlight (s : DbState) (f0 : Flight) :
    coresOf ((createFlight s f0).1.flights) =
      coresOf s.flights ++ [((createFlight s f0).2).core] := by
  show coresOf (s.flights ++ [{ f0 with id := s.nextFlightId }]) = _
  rw [coresOf, coresOf, List.map_append]
  rfl

/-- `WF` transports along equal id columns and sequence values. -/
theorem WF_transport {s s' : DbState} (hids : idsOf s'.flights = idsOf s.flights)
    (hnext : s'.nextFlightId = s.nextFlightId) (h : WF s) : WF s' := by
  obtain ⟨hb, hnd⟩ := h
  exact ⟨fun x hx => hnext ▸ hb x (hids ▸ hx), hids ▸ hnd⟩

theorem WF_updateFlightWith {s : DbState} (fid : ℕ) {p : Flight → Flight}
    (hp : ∀ g, (p g).core = g.core) (h : WF s) : WF (updateFlightWith s fid p) := by
  apply WF_transport _ (nextId_updateFlightWith s fid p) h
  rw [idsOf_eq_coresOf, idsOf_eq_coresOf, coresOf_updateFlightWith s fid p hp]

theorem WF_updateGateWith {s : DbState} (gid : ℕ) (p : Gate → Gate) (h : WF s) :
    WF (updateGateWith s gid p) := h

theorem WF_createFlight {s : DbState} (f0 : Flight) (h : WF s) :
    WF (createFlight s f0).1 := by
  obtain ⟨hb, hnd⟩ := h
  have hids : idsOf ((createFlight s f0).1.flights) = idsOf s.flights ++ [s.nextFlightId] := by
    show idsOf (s.flights ++ [{ f0 with id := s.nextFlightId }]) = _
    rw [idsOf, idsOf, List.map_append]
    rfl
  constructor
  · intro x hx
    rw [hids, List.mem_append] at hx
    show x < s.nextFlightId + 1
    rcases hx with hx | hx
    · exact Nat.lt_succ_of_lt (hb x hx)
    · simp only [List.mem_singleton] at hx
      omega
  · rw [hids]
    refine List.Nodup.append hnd (by simp) ?_
    intro x hx hx2
    simp only [List.mem_singleton] at hx2
    subst hx2
    exact absurd (hb _ hx) (lt_irrefl _)

theorem domesticActivatePatch_core (i : ℕ) (f g : Flight) :
    (domesticActivatePatch i f g).core = g.core := rfl

theorem synthPredPatch_core (t r : ℤ) (g : Flight) : (synthPredPatch t r g).core = g.core := rfl

theorem synthGatePatch_core (gid : ℕ) (slot now : ℤ) (g : Flight) :
    (synthGatePatch gid slot now g).core = g.core := rfl

theorem deactPatch_core (d g : Flight) : (deactPatch d g).core = g.core := rfl

theorem status_of_core {f g : Flight} (h : f.core = g.core) : f.status = g.status :=
  congrArg (fun c => c.2.1) h

theorem id_of_core {f g : Flight} (h : f.core = g.core) : f.id = g.id :=
  congrArg (fun c => c.1) h

theorem params_of_core {f g : Flight} (h : f.core = g.core) : f.params = g.params :=
  congrArg (fun c => c.2.2) h

/-- Two flights of an id-unique list with the same id are the same row. -/
theorem flight_inj_of_nodup {fl : List Flight} (hnd : (idsOf fl).Nodup) :
    ∀ {a b : Flight}, a ∈ fl → b ∈ fl → a.id = b.id → a = b := by
  intro a b ha hb hab
  rw [idsOf] at hnd
  exact List.inj_on_of_nodup_map hnd ha hb hab

/-- Mapping a status-preserving function that fixes DIVERTED rows leaves the
DIVERTED sublist unchanged. -/
theorem divertedOf_map (fl : List Flight) (F : Flight → Flight)
    (hstat : ∀ g, (F g).status = g.status)
    (hfix : ∀ g ∈ fl, g.status = "DIVERTED" → F g = g) :
    divertedOf (fl.map F) = divertedOf fl := by
  induction fl with
  | nil => rfl
  | cons a l ih =>
      have ih2 := ih (fun g hg hgd => hfix g (List.mem_cons_of_mem a hg) hgd)
      unfold divertedOf at ih2 ⊢
      rw [List.map_cons, List.filter_cons, List.filter_cons]
      by_cases h : a.status = "DIVERTED"
      · have hc1 : decide ((F a).status = "DIVERTED") = true := by
          rw [hstat a]; exact decide_eq_true h
        rw [if_pos hc1, if_pos (decide_eq_true h), hfix a (List.mem_cons_self a l) h, ih2]
      · have hc1 : ¬ decide ((F a).status = "DIVERTED") = true := by
          rw [hstat a]; simpa using h
        have hc2 : ¬ decide (a.status = "DIVERTED") = true := by simpa using h
        rw [if_neg hc1, if_neg hc2, ih2]

/-- `updateFlight` with a status-preserving patch whose target id is not a
DIVERTED row's id leaves the DIVERTED sublist unchanged. -/
theorem divertedOf_updateFlightWith (s : DbState) (fid : ℕ) (p : Flight → Flight)
    (hstat : ∀ g, (p g).status = g.status)
    (hsafe : ∀ g ∈ s.flights, g.status = "DIVERTED" → ¬ g.id = fid) :
    divertedOf (updateFlightWith s fid p).flights = divertedOf s.flights := by
  apply divertedOf_map
  · intro g
    by_cases h : g.id = fid
    · rw [if_pos h]; exact hstat g
    · rw [if_neg h]
  · intro g hg hgd
    rw [if_neg (hsafe g hg hgd)]

/-- The domestic activation loop touches no DIVERTED row when every row
sharing an id with a loop flight has that flight's (non-DIVERTED) status. -/
theorem divertedOf_activateDomesticGo :
    ∀ (doms : List Flight) (i : ℕ) (st : DbState),
      (∀ d ∈ doms, ¬ d.status = "DIVERTED") →
      (∀ d ∈ doms, ∀ g ∈ st.flights, g.id = d.id → g.status = d.status) →
      divertedOf (activateDomesticGo i doms st).flights = divertedOf st.flights := by
  intro doms
  induction doms with
  | nil => intro i st _ _; rfl
  | cons d rest ih =>
      intro i st hnd hcons
      have hstep : divertedOf (updateFlightWith st d.id (domesticActivatePatch i d)).flights =
          divertedOf st.flights := by
        apply divertedOf_updateFlightWith
        · intro g; exact status_of_core (domesticActivatePatch_core i d g)
        · intro g hg hgd hid
          exact hnd d (List.mem_cons_self d rest)
            ((hcons d (List.mem_cons_self d rest) g hg hid ▸ hgd))
      have htrans : ∀ d' ∈ rest, ∀ g1 ∈ (updateFlightWith st d.id
          (domesticActivatePatch i d)).flights, g1.id = d'.id → g1.status = d'.status := by
        intro d' hd' g1 hg1
        rcases List.mem_map.mp hg1 with ⟨g, hg, hge⟩
        have hcore : g1.core = g.core := by
          rw [← hge]
          exact patchIf_core (fun g => domesticActivatePatch_core i d g) g
        intro hid
        rw [status_of_core hcore]
        exact hcons d' (List.mem_cons_of_mem d hd') g hg (id_of_core hcore ▸ hid)
      show divertedOf (activateDomesticGo (i + 1) rest _).flights = _
      rw [ih (i + 1) _ (fun d' hd' => hnd d' (List.mem_cons_of_mem d hd')) htrans, hstep]

theorem coresOf_activateDomesticGo :
    ∀ (doms : List Flight) (i : ℕ) (st : DbState),
      coresOf (activateDomesticGo i doms st).flights = coresOf st.flights := by
  intro doms
  induction doms with
  | nil => intro i st; rfl
  | cons d rest ih =>
      intro i st
      show coresOf (activateDomesticGo (i + 1) rest _).flights = _
      rw [ih, coresOf_updateFlightWith _ _ _ (fun g => domesticActivatePatch_core i d g)]

theorem WF_activateDomesticGo :
    ∀ (doms : List Flight) (i : ℕ) (st : DbState), WF st →
      WF (activateDomesticGo i doms st) := by
  intro doms
  induction doms with
  | nil => intro i st h; exact h
  | cons d rest ih =>
      intro i st h
      exact ih (i + 1) _
        (WF_updateFlightWith d.id (fun g => domesticActivatePatch_core i d g) h)

theorem gates_activateDomesticGo :
    ∀ (doms : List Flight) (i : ℕ) (st : DbState),
      (activateDomesticGo i doms st).gates = st.gates := by
  intro doms
  induction doms with
  | nil => intro i st; rfl
  | cons d rest ih =>
      intro i st
      show (activateDomesticGo (i + 1) rest _).gates = _
      rw [ih, gates_updateFlightWith]

theorem coresOf_update_synthPred (s : DbState) (fid : ℕ) (t r : ℤ) :
    coresOf (updateFlightWith s fid (synthPredPatch t r)).flights = coresOf s.flights :=
  coresOf_updateFlightWith _ _ _ (fun g => synthPredPatch_core t r g)

theorem coresOf_update_synthGate (s : DbState) (fid gid : ℕ) (slot now : ℤ) :
    coresOf (updateFlightWith s fid (synthGatePatch gid slot now)).flights =
      coresOf s.flights :=
  coresOf_updateFlightWith _ _ _ (fun g => synthGatePatch_core gid slot now g)

theorem coresOf_synthesizeStep (now : ℤ) (snap : List Gate) (acc : DbState × ℤ) (f : Flight) :
    ∃ t, coresOf ((synthesizeStep now snap acc f).1.flights) = coresOf acc.1.flights ++ t := by
  unfold synthesizeStep
  dsimp only
  split
  · split
    · refine ⟨[((createFlight acc.1 f).2).core], ?_⟩
      rw [coresOf_update_synthGate, flights_updateGateWith, coresOf_update_synthPred]
      exact coresOf_createFlight acc.1 f
    · refine ⟨[((createFlight acc.1 f).2).core], ?_⟩
      rw [coresOf_update_synthPred]
      exact coresOf_createFlight acc.1 f
  · refine ⟨[((createFlight acc.1 f).2).core], ?_⟩
    rw [coresOf_update_synthPred]
    exact coresOf_createFlight acc.1 f

theorem WF_synthesizeStep (now : ℤ) (snap : List Gate) (acc : DbState × ℤ) (f : Flight)
    (h : WF acc.1) : WF (synthesizeStep now snap acc f).1 := by
  unfold synthesizeStep
  dsimp only
  split
  · split
    · exact WF_updateFlightWith _ (fun g => synthGatePatch_core _ _ _ g)
        (WF_updateGateWith _ _
          (WF_updateFlightWith _ (fun g => synthPredPatch_core _ _ g) (WF_createFlight f h)))
    · exact WF_updateFlightWith _ (fun g => synthPredPatch_core _ _ g) (WF_createFlight f h)
  · exact WF_updateFlightWith _ (fun g => synthPredPatch_core _ _ g) (WF_createFlight f h)

theorem coresOf_synthFold (now : ℤ) (snap : List Gate) :
    ∀ (roster : List Flight) (acc : DbState × ℤ),
      ∃ t, coresOf ((roster.foldl (synthesizeStep now snap) acc).1.flights) =
        coresOf acc.1.flights ++ t := by
  intro roster
  induction roster with
  | nil => intro acc; exact ⟨[], by rw [List.append_nil]; rfl⟩
  | cons f rest ih =>
      intro acc
      obtain ⟨t1, ht1⟩ := coresOf_synthesizeStep now snap acc f
      obtain ⟨t2, ht2⟩ := ih (synthesizeStep now snap acc f)
      exact ⟨t1 ++ t2, by rw [List.foldl_cons, ht2, ht1, List.append_assoc]⟩

theorem WF_synthFold (now : ℤ) (snap : List Gate) :
    ∀ (roster : List Flight) (acc : DbState × ℤ), WF acc.1 →
      WF ((roster.foldl (synthesizeStep now snap) acc).1) := by
  intro roster
  induction roster with
  | nil => intro acc h; exact h
  | cons f rest ih =>
      intro acc h
      rw [List.foldl_cons]
      exact ih _ (WF_synthesizeStep now snap acc f h)

theorem WF_activateFuelCrisis (now : ℤ) {s : DbState} (h : WF s) :
    WF (activateFuelCrisis now s) :=
  WF_transport (congrArg idsOf (flights_activateFuelCrisis now s))
    (nextId_activateFuelCrisis now s) h

theorem WF_activateCrisisRoute (now : ℤ) {s : DbState} (h : WF s) :
    WF (activateCrisisRoute now s) := by
  unfold activateCrisisRoute
  dsimp only
  apply WF_activateDomesticGo
  split
  · exact WF_synthFold now _ _ _ (WF_activateFuelCrisis now h)
  · exact WF_activateFuelCrisis now h

theorem coresOf_activateCrisisRoute (now : ℤ) (s : DbState) :
    ∃ t, coresOf (activateCrisisRoute now s).flights = coresOf s.flights ++ t := by
  unfold activateCrisisRoute
  dsimp only
  rw [coresOf_activateDomesticGo]
  split
  · obtain ⟨t, ht⟩ :=
      coresOf_synthFold now (activateFuelCrisis now s).gates (divertedRoster now)
        (activateFuelCrisis now s, 1)
    refine ⟨t, ?_⟩
    rw [show synthesizeDiverted now (activateFuelCrisis now s) =
      ((divertedRoster now).foldl
        (synthesizeStep now (activateFuelCrisis now s).gates)
        (activateFuelCrisis now s, 1)).1 from rfl]
    rw [ht]
    rw [show (activateFuelCrisis now s, 1).1 = activateFuelCrisis now s from rfl,
      flights_activateFuelCrisis]
  · exact ⟨[], by rw [List.append_nil, flights_activateFuelCrisis]⟩

theorem hasDiverted_map {fl : List Flight} (F : Flight → Flight)
    (hstat : ∀ g, (F g).status = g.status) (h : HasDiverted fl) :
    HasDiverted (fl.map F) := by
  rcases h with ⟨g, hg, hgd⟩
  exact ⟨F g, List.mem_map_of_mem F hg, by rw [hstat g]; exact hgd⟩

theorem hasDiverted_updateFlightWith {s : DbState} (fid : ℕ) {p : Flight → Flight}
    (hstat : ∀ g, (p g).status = g.status) (h : HasDiverted s.flights) :
    HasDiverted (updateFlightWith s fid p).flights := by
  apply hasDiverted_map _ _ h
  intro g
  by_cases hc : g.id = fid
  · rw [if_pos hc]; exact hstat g
  · rw [if_neg hc]

theorem hasDiverted_createFlight {s : DbState} (f0 : Flight) (h : HasDiverted s.flights) :
    HasDiverted (createFlight s f0).1.flights := by
  rcases h with ⟨g, hg, hgd⟩
  exact ⟨g, List.mem_append_left _ hg, hgd⟩

theorem hasDiverted_createFlight_of_div {s : DbState} {f0 : Flight}
    (hf : f0.status = "DIVERTED") : HasDiverted (createFlight s f0).1.flights :=
  ⟨{ f0 with id := s.nextFlightId }, List.mem_append_right _ (List.mem_singleton.mpr rfl), hf⟩

theorem hasDiverted_synthesizeStep (now : ℤ) (snap : List Gate) (acc : DbState × ℤ)
    (f : Flight) (h : HasDiverted acc.1.flights ∨ f.status = "DIVERTED") :
    HasDiverted (synthesizeStep now snap acc f).1.flights := by
  have hbase : ∀ t r : ℤ, HasDiverted (updateFlightWith (createFlight acc.1 f).1
      ((createFlight acc.1 f).2).id (synthPredPatch t r)).flights := by
    intro t r
    apply hasDiverted_updateFlightWith _ (fun g => status_of_core (synthPredPatch_core _ _ g))
    rcases h with h | h
    · exact hasDiverted_createFlight f h
    · exact hasDiverted_createFlight_of_div h
  unfold synthesizeStep
  dsimp only
  split
  · split
    · apply hasDiverted_updateFlightWith _
        (fun g => status_of_core (synthGatePatch_core _ _ _ g))
      rw [show (updateGateWith _ _ _).flights = _ from flights_updateGateWith _ _ _]
      exact hbase _ _
    · exact hbase _ _
  · exact hbase _ _

theorem hasDiverted_synthFold (now : ℤ) (snap : List Gate) :
    ∀ (roster : List Flight) (acc : DbState × ℤ), HasDiverted acc.1.flights →
      HasDiverted ((roster.foldl (synthesizeStep now snap) acc).1.flights) := by
  intro roster
  induction roster with
  | nil => intro acc h; exact h
  | cons f rest ih =>
      intro acc h
      rw [List.foldl_cons]
      exact ih _ (hasDiverted_synthesizeStep now snap acc f (Or.inl h))

theorem hasDiverted_synthesizeDiverted (now : ℤ) (s : DbState) :
    HasDiverted (synthesizeDiverted now s).flights := by
  unfold synthesizeDiverted
  dsimp only
  rw [divertedRoster, List.foldl_cons]
  apply hasDiverted_synthFold
  apply hasDiverted_synthesizeStep
  right
  rfl

theorem hasDiverted_activateDomesticGo :
    ∀ (doms : List Flight) (i : ℕ) (st : DbState), HasDiverted st.flights →
      HasDiverted (activateDomesticGo i doms st).flights := by
  intro doms
  induction doms with
  | nil => intro i st h; exact h
  | cons d rest ih =>
      intro i st h
      show HasDiverted (activateDomesticGo (i + 1) rest _).flights
      exact ih (i + 1) _ (hasDiverted_updateFlightWith _
        (fun g => status_of_core (domesticActivatePatch_core i d g)) h)

theorem hasDiverted_activate (now : ℤ) (s : DbState) :
    HasDiverted (activateCrisisRoute now s).flights := by
  unfold activateCrisisRoute
  dsimp only
  apply hasDiverted_activateDomesticGo
  split
  · exact hasDiverted_synthesizeDiverted now _
  · next hne =>
      have hnn : getDivertedFlights (activateFuelCrisis now s) ≠ [] := by
        intro h
        apply hne
        rw [h]
        rfl
      obtain ⟨f, hf⟩ := List.exists_mem_of_ne_nil _ hnn
      have hm := List.mem_filter.mp hf
      exact ⟨f, hm.1, of_decide_eq_true hm.2⟩

/-- Activating while some DIVERTED flight exists skips synthesis and leaves
the DIVERTED sublist untouched. -/
theorem divertedOf_activate_second (now : ℤ) (s1 : DbState) (hWF1 : WF s1)
    (hdiv : HasDiverted s1.flights) :
    divertedOf (activateCrisisRoute now s1).flights = divertedOf s1.flights := by
  unfold activateCrisisRoute
  dsimp only
  have hflights : (activateFuelCrisis now s1).flights = s1.flights :=
    flights_activateFuelCrisis now s1
  have hne : ¬ (getDivertedFlights (activateFuelCrisis now s1)).isEmpty = true := by
    rcases hdiv with ⟨f, hf, hfd⟩
    have hmem : f ∈ getDivertedFlights (activateFuelCrisis now s1) := by
      rw [getDivertedFlights, hflights]
      exact List.mem_filter.mpr ⟨hf, decide_eq_true hfd⟩
    intro h
    rw [List.isEmpty_iff] at h
    rw [h] at hmem
    exact absurd hmem (List.not_mem_nil f)
  rw [if_neg hne]
  have hnd : (idsOf (activateFuelCrisis now s1).flights).Nodup := by
    rw [hflights]
    exact hWF1.2
  rw [divertedOf_activateDomesticGo _ 0 _ ?_ ?_]
  · rw [hflights]
  · intro d hd
    have hm := List.mem_filter.mp hd
    have hcond := of_decide_eq_true hm.2
    rcases hcond.1 with h | h <;> rw [h] <;> decide
  · intro d hd g hg hid
    have hdmem : d ∈ (activateFuelCrisis now s1).flights := (List.mem_filter.mp hd).1
    rw [flight_inj_of_nodup hnd hg hdmem hid]

/-- C5: activating twice produces exactly the same DIVERTED flight rows as
activating once — the second activation synthesizes no duplicate roster.
Both transitions are total functions of the state, so repeat invocation
cannot fail. -/
theorem c5_activate_idempotent :
    ∀ (s : DbState) (n1 n2 : ℤ), WF s →
      divertedOf (activateCrisisRoute n2 (activateCrisisRoute n1 s)).flights =
        divertedOf (activateCrisisRoute n1 s).flights := by
  intro s n1 n2 h
  exact divertedOf_activate_second n2 _ (WF_activateCrisisRoute n1 h)
    (hasDiverted_activate n1 s)

/-- Witness for C5 from the empty database. -/
theorem c5_activate_idempotent_witness :
    WF ⟨[], [], none, 1⟩ ∧
    divertedOf (activateCrisisRoute 0 (activateCrisisRoute 0 ⟨[], [], none, 1⟩)).flights =
      divertedOf (activateCrisisRoute 0 ⟨[], [], none, 1⟩).flights :=
  ⟨⟨by intro x hx; exact absurd hx (List.not_mem_nil x), List.nodup_nil⟩,
   c5_activate_idempotent ⟨[], [], none, 1⟩ 0 0
     ⟨by intro x hx; exact absurd hx (List.not_mem_nil x), List.nodup_nil⟩⟩

theorem flights_freeGatesGo :
    ∀ (divs : List Flight) (st : DbState), (freeGatesGo divs st).flights = st.flights := by
  intro divs
  induction divs with
  | nil => intro st; rfl
  | cons f rest ih =>
      intro st
      unfold freeGatesGo
      dsimp only
      split
      · rw [ih, flights_updateGateWith]
      · rw [ih]

theorem gates_deactDomesticGo :
    ∀ (doms : List Flight) (st : DbState), (deactDomesticGo doms st).gates = st.gates := by
  intro doms
  induction doms with
  | nil => intro st; rfl
  | cons d rest ih =>
      intro st
      show (deactDomesticGo rest _).gates = _
      rw [ih, gates_updateFlightWith]

theorem flights_deactStorage (s : DbState) :
    (deactivateFuelCrisisStorage s).flights = s.flights.map (fun f =>
      if f.status = "FUEL_QUEUE" then { f with fuelQueuePosition := none, fuelStartTime := none }
      else f) := by
  unfold deactivateFuelCrisisStorage
  dsimp only
  split <;> rfl

theorem gates_deactStorage (s : DbState) :
    (deactivateFuelCrisisStorage s).gates = s.gates := by
  unfold deactivateFuelCrisisStorage
  dsimp only
  split <;> rfl

theorem divertedOf_deactStorage (s : DbState) :
    divertedOf (deactivateFuelCrisisStorage s).flights = divertedOf s.flights := by
  rw [flights_deactStorage]
  apply divertedOf_map
  · intro g
    by_cases h : g.status = "FUEL_QUEUE"
    · rw [if_pos h]
    · rw [if_neg h]
  · intro g _ hgd
    have : ¬ g.status = "FUEL_QUEUE" := by rw [hgd]; decide
    rw [if_neg this]

theorem coresOf_deactStorage (s : DbState) :
    coresOf (deactivateFuelCrisisStorage s).flights = coresOf s.flights := by
  rw [flights_deactStorage]
  apply coresOf_map
  intro g
  by_cases h : g.status = "FUEL_QUEUE"
  · rw [if_pos h]
    rfl
  · rw [if_neg h]

/-- A gate already freed stays freed through the rest of the gate loop. -/
theorem freeGatesGo_preserves :
    ∀ (divs : List Flight) (st : DbState) (gid : ℕ),
      (∀ g ∈ st.gates, g.id = gid → g.status = "FREE" ∧ g.currentFlightId = none) →
      (∀ g ∈ (freeGatesGo divs st).gates, g.id = gid →
        g.status = "FREE" ∧ g.currentFlightId = none) := by
  intro divs
  induction divs with
  | nil => intro st gid h; exact h
  | cons f rest ih =>
      intro st gid h
      unfold freeGatesGo
      dsimp only
      split
      · next gid' _ =>
          apply ih
          intro g hg hgid
          rcases List.mem_map.mp hg with ⟨g0, hg0, hge⟩
          by_cases hc : g0.id = gid'
          · rw [← hge, if_pos hc]
            exact ⟨rfl, rfl⟩
          · rw [← hge, if_neg hc]
            apply h g0 hg0
            rw [← hge, if_neg hc] at hgid
            exact hgid
      · exact ih st gid h

theorem freeGatesGo_cons (f : Flight) (rest : List Flight) (st : DbState) :
    freeGatesGo (f :: rest) st =
      freeGatesGo rest
        (match f.gateId with
         | some gid => updateGateWith st gid gateFreePatch
         | none => st) := rfl

/-- After the gate loop, every gate referenced by a processed flight's
gateId is FREE with no current flight. -/
theorem freeGatesGo_frees :
    ∀ (divs : List Flight) (st : DbState),
      ∀ g ∈ (freeGatesGo divs st).gates,
        (∃ f ∈ divs, f.gateId = some g.id) →
        g.status = "FREE" ∧ g.currentFlightId = none := by
  intro divs
  induction divs with
  | nil =>
      intro st g _ hex
      rcases hex with ⟨f, hf, _⟩
      exact absurd hf (List.not_mem_nil f)
  | cons f rest ih =>
      intro st g hg hex
      rw [freeGatesGo_cons] at hg
      rcases hex with ⟨f', hf', hfg⟩
      rcases hcase : f.gateId with _ | gid
      · rw [hcase] at hg
        have hg' : g ∈ (freeGatesGo rest st).gates := hg
        rcases List.mem_cons.mp hf' with hf'f | hf'rest
        · subst hf'f
          rw [hcase] at hfg
          exact Option.noConfusion hfg
        · exact ih st g hg' ⟨f', hf'rest, hfg⟩
      · rw [hcase] at hg
        have hg' : g ∈ (freeGatesGo rest (updateGateWith st gid gateFreePatch)).gates := hg
        rcases List.mem_cons.mp hf' with hf'f | hf'rest
        · subst hf'f
          rw [hcase] at hfg
          have hgid : gid = g.id := Option.some_injective _ hfg
          have hstep : ∀ g' ∈ (updateGateWith st gid gateFreePatch).gates, g'.id = gid →
              g'.status = "FREE" ∧ g'.currentFlightId = none := by
            intro g' hg2 hgid'
            rcases List.mem_map.mp hg2 with ⟨g0, hg0, hge⟩
            by_cases hcc : g0.id = gid
            · rw [← hge, if_pos hcc]
              exact ⟨rfl, rfl⟩
            · rw [← hge, if_neg hcc] at hgid'
              exact absurd hgid' hcc
          exact freeGatesGo_preserves rest _ gid hstep g hg' hgid.symm
        · exact ih _ g hg' ⟨f', hf'rest, hfg⟩

/-- Closed form of the deactivation recompute loop when the snapshot ids are
distinct: every row whose id occurs in the snapshot receives the patch
computed from its snapshot row, all others are untouched. -/
theorem deactDomesticGo_flights :
    ∀ (doms : List Flight) (st : DbState), (idsOf doms).Nodup →
      (deactDomesticGo doms st).flights = st.flights.map (fun g =>
        match doms.find? (fun d => decide (d.id = g.id)) with
        | some d => deactPatch d g
        | none => g) := by
  intro doms
  induction doms with
  | nil =>
      intro st _
      show st.flights = _
      have : (st.flights.map (fun g =>
          match (List.find? (fun d => decide (d.id = g.id)) []) with
          | some d => deactPatch d g
          | none => g)) = st.flights.map (fun g => g) :=
        List.map_congr_left (fun a _ => rfl)
      rw [this, List.map_id']
  | cons d rest ih =>
      intro st hnd
      rw [idsOf, List.map_cons, List.nodup_cons] at hnd
      show (deactDomesticGo rest (updateFlightWith st d.id (deactPatch d))).flights = _
      rw [ih _ (by rw [idsOf]; exact hnd.2)]
      show (st.flights.map _).map _ = _
      rw [List.map_map]
      apply List.map_congr_left
      intro g _
      simp only [Function.comp_apply]
      by_cases hc : g.id = d.id
      · rw [if_pos hc]
        have hnone : List.find? (fun d' => decide (d'.id = (deactPatch d g).id)) rest = none := by
          rw [List.find?_eq_none]
          intro d' hd'
          simp only [decide_eq_true_eq]
          show ¬ d'.id = g.id
          rw [hc]
          intro h
          exact hnd.1 (h ▸ List.mem_map_of_mem Flight.id hd')
        have hpos : List.find? (fun d' => decide (d'.id = g.id)) (d :: rest) = some d :=
          List.find?_cons_of_pos _ (decide_eq_true hc.symm)
        rw [hnone, hpos]
      · rw [if_neg hc]
        have hneg : ¬ (decide (d.id = g.id) = true) := by
          simp only [decide_eq_true_eq]
          intro h
          exact hc h.symm
        have h2 : List.find? (fun d' => decide (d'.id = g.id)) (d :: rest) =
            List.find? (fun d' => decide (d'.id = g.id)) rest :=
          List.find?_cons_of_neg rest hneg
        rw [h2]

/-- First-order wrapper of `List.find?_some` for flight predicates. -/
theorem find?_pred_of_eq_some {p : Flight → Bool} {l : List Flight} {d : Flight}
    (h : List.find? p l = some d) : p d = true :=
  List.find?_some h

theorem deactDomesticGo_no_diverted :
    ∀ (doms : List Flight) (st : DbState),
      (∀ g ∈ st.flights, ¬ g.status = "DIVERTED") →
      ∀ g ∈ (deactDomesticGo doms st).flights, ¬ g.status = "DIVERTED" := by
  intro doms
  induction doms with
  | nil => intro st h; exact h
  | cons d rest ih =>
      intro st h
      apply ih
      intro g hg
      rcases List.mem_map.mp hg with ⟨g0, hg0, hge⟩
      have hst : g.status = g0.status := by
        rw [← hge]
        exact status_of_core (patchIf_core (fun x => deactPatch_core d x) g0)
      rw [hst]
      exact h g0 hg0

theorem divertedOf_eq_nil {fl : List Flight} (h : ∀ g ∈ fl, ¬ g.status = "DIVERTED") :
    divertedOf fl = [] := by
  unfold divertedOf
  rw [List.filter_eq_nil_iff]
  intro a ha
  simpa using h a ha

/-- Deactivation deletes every DIVERTED flight. -/
theorem divertedOf_deactivate (s : DbState) :
    divertedOf (deactivateCrisisRoute s).flights = [] := by
  unfold deactivateCrisisRoute
  dsimp only
  apply divertedOf_eq_nil
  apply deactDomesticGo_no_diverted
  intro g hg
  rw [show (freeGatesGo _ (deactivateFuelCrisisStorage s)).flights =
    (deactivateFuelCrisisStorage s).flights from flights_freeGatesGo _ _] at hg
  have := (List.mem_filter.mp hg).2
  simpa using this

/-- Deactivation frees every gate referenced by a DIVERTED flight of the
state it received. -/
theorem deact_gates (s : DbState) :
    ∀ g ∈ (deactivateCrisisRoute s).gates,
      (∃ f ∈ divertedOf s.flights, f.gateId = some g.id) →
      g.status = "FREE" ∧ g.currentFlightId = none := by
  intro g hg hex
  unfold deactivateCrisisRoute at hg
  dsimp only at hg
  rw [gates_deactDomesticGo] at hg
  have hg2 : g ∈ (freeGatesGo
      ((deactivateFuelCrisisStorage s).flights.filter (fun f => f.status = "DIVERTED"))
      (deactivateFuelCrisisStorage s)).gates := hg
  apply freeGatesGo_frees _ _ g hg2
  rcases hex with ⟨f, hf, hfg⟩
  refine ⟨f, ?_, hfg⟩
  show f ∈ divertedOf (deactivateFuelCrisisStorage s).flights
  rw [divertedOf_deactStorage]
  exact hf

/-- After deactivation every ACTIVE/SCHEDULED flight's queue position is
cleared. -/
theorem deact_queue_cleared (s : DbState) (hWF : WF s) :
    ∀ f ∈ (deactivateCrisisRoute s).flights,
      (f.status = "ACTIVE" ∨ f.status = "SCHEDULED") → f.fuelQueuePosition = none := by
  have hnd0 : (idsOf (deactivateFuelCrisisStorage s).flights).Nodup := by
    rw [idsOf_eq_coresOf, coresOf_deactStorage, ← idsOf_eq_coresOf]
    exact hWF.2
  have hnddoms : (idsOf ((deactivateFuelCrisisStorage s).flights.filter
      (fun f => f.status = "ACTIVE" ∨ f.status = "SCHEDULED"))).Nodup := by
    rw [idsOf]
    exact List.Nodup.sublist (List.Sublist.map _ (List.filter_sublist _)) hnd0
  intro f hf hst
  unfold deactivateCrisisRoute at hf
  dsimp only at hf
  rw [deactDomesticGo_flights _ _ hnddoms] at hf
  rcases List.mem_map.mp hf with ⟨g, hg, hge⟩
  rcases hfind : List.find? (fun d => decide (d.id = g.id))
      ((deactivateFuelCrisisStorage s).flights.filter
        (fun f => f.status = "ACTIVE" ∨ f.status = "SCHEDULED")) with _ | d
  · rw [hfind] at hge
    have hge2 : g = f := hge
    have hgmem : g ∈ (deactivateFuelCrisisStorage s).flights := by
      rw [show (freeGatesGo _ (deactivateFuelCrisisStorage s)).flights =
        (deactivateFuelCrisisStorage s).flights from flights_freeGatesGo _ _] at hg
      exact (List.mem_filter.mp hg).1
    have hgst : g.status = "ACTIVE" ∨ g.status = "SCHEDULED" := by
      rw [hge2]
      exact hst
    have hgdoms : g ∈ (deactivateFuelCrisisStorage s).flights.filter
        (fun f => f.status = "ACTIVE" ∨ f.status = "SCHEDULED") :=
      List.mem_filter.mpr ⟨hgmem, decide_eq_true hgst⟩
    have hcontra := List.find?_eq_none.mp hfind g hgdoms
    exact absurd (decide_eq_true (show g.id = g.id from rfl)) hcontra
  · rw [hfind] at hge
    have hge2 : deactPatch d g = f := hge
    rw [← hge2]
    rfl

/-- After deactivation every ACTIVE/SCHEDULED flight of the received state
carries exactly the normal-hydrant `calcPrediction` of its parameters. -/
theorem deact_restore (s : DbState) (hWF : WF s) :
    ∀ f0 ∈ s.flights, (f0.status = "ACTIVE" ∨ f0.status = "SCHEDULED") →
      ∃ f ∈ (deactivateCrisisRoute s).flights,
        f.id = f0.id ∧ f.status = f0.status ∧ f.fuelQueuePosition = none ∧
        f.predictedTat = some (calcPrediction f0.params).predictedTat ∧
        f.penaltyRisk = some (calcPrediction f0.params).penaltyRisk := by
  have hnd0 : (idsOf (deactivateFuelCrisisStorage s).flights).Nodup := by
    rw [idsOf_eq_coresOf, coresOf_deactStorage, ← idsOf_eq_coresOf]
    exact hWF.2
  have hnddoms : (idsOf ((deactivateFuelCrisisStorage s).flights.filter
      (fun f => f.status = "ACTIVE" ∨ f.status = "SCHEDULED"))).Nodup := by
    rw [idsOf]
    exact List.Nodup.sublist (List.Sublist.map _ (List.filter_sublist _)) hnd0
  intro f0 hf0 hst
  have hf0s0 : f0 ∈ (deactivateFuelCrisisStorage s).flights := by
    rw [flights_deactStorage]
    have hne : ¬ f0.status = "FUEL_QUEUE" := by
      rcases hst with h | h <;> rw [h] <;> decide
    have hmm := List.mem_map_of_mem
      (fun f => if f.status = "FUEL_QUEUE"
        then { f with fuelQueuePosition := none, fuelStartTime := none } else f) hf0
    dsimp only at hmm
    rwa [if_neg hne] at hmm
  have hf0doms : f0 ∈ (deactivateFuelCrisisStorage s).flights.filter
      (fun f => f.status = "ACTIVE" ∨ f.status = "SCHEDULED") :=
    List.mem_filter.mpr ⟨hf0s0, decide_eq_true hst⟩
  have hf0s2 : f0 ∈ (freeGatesGo
        ((deactivateFuelCrisisStorage s).flights.filter (fun f => f.status = "DIVERTED"))
        (deactivateFuelCrisisStorage s)).flights.filter
      (fun f => ¬ f.status = "DIVERTED") := by
    rw [show (freeGatesGo _ (deactivateFuelCrisisStorage s)).flights =
      (deactivateFuelCrisisStorage s).flights from flights_freeGatesGo _ _]
    refine List.mem_filter.mpr ⟨hf0s0, decide_eq_true ?_⟩
    rcases hst with h | h <;> rw [h] <;> decide
  have hfindsome : ∃ d, List.find? (fun d => decide (d.id = f0.id))
      ((deactivateFuelCrisisStorage s).flights.filter
        (fun f => f.status = "ACTIVE" ∨ f.status = "SCHEDULED")) = some d := by
    have : (List.find? (fun d => decide (d.id = f0.id))
        ((deactivateFuelCrisisStorage s).flights.filter
          (fun f => f.status = "ACTIVE" ∨ f.status = "SCHEDULED"))).isSome := by
      rw [List.find?_isSome]
      exact ⟨f0, hf0doms, decide_eq_true rfl⟩
    exact Option.isSome_iff_exists.mp this
  rcases hfindsome with ⟨d, hd⟩
  have hdmem : d ∈ (deactivateFuelCrisisStorage s).flights :=
    (List.mem_filter.mp (List.mem_of_find?_eq_some hd)).1
  have hdid2 : decide (d.id = f0.id) = true := find?_pred_of_eq_some hd
  have hdid : d.id = f0.id := of_decide_eq_true hdid2
  have hdf0 : d = f0 := flight_inj_of_nodup hnd0 hdmem hf0s0 hdid
  refine ⟨deactPatch f0 f0, ?_, rfl, rfl, rfl, ?_, ?_⟩
  · unfold deactivateCrisisRoute
    dsimp only
    rw [deactDomesticGo_flights _ _ hnddoms]
    have hmem := List.mem_map_of_mem (fun g =>
      match List.find? (fun d => decide (d.id = g.id))
          ((deactivateFuelCrisisStorage s).flights.filter
            (fun f => f.status = "ACTIVE" ∨ f.status = "SCHEDULED")) with
      | some d => deactPatch d g
      | none => g) hf0s2
    dsimp only at hmem ⊢
    rw [hd, hdf0] at hmem
    exact hmem
  · show some (deactRecalc f0).1 = _
    rw [deactRecalc_eq]
  · show some (deactRecalc f0).2.1 = _
    rw [deactRecalc_eq]

/-- C6: after activate() followed by deactivate(), no DIVERTED flight
remains, every gate a diverted flight occupied is FREE with no current
flight, every ACTIVE/SCHEDULED flight's queue position is cleared, and every
ACTIVE/SCHEDULED flight of the original state ends up with exactly the
normal-hydrant prediction `calcPrediction` of its own parameters — the value
it would have had absent any crisis, with
fuelDuration = round(fuelLiters * 0.002). -/
theorem c6_deactivate_reverts :
    ∀ (s : DbState) (now : ℤ), WF s →
      divertedOf (deactivateCrisisRoute (activateCrisisRoute now s)).flights = [] ∧
      (∀ g ∈ (deactivateCrisisRoute (activateCrisisRoute now s)).gates,
        (∃ f ∈ divertedOf (activateCrisisRoute now s).flights, f.gateId = some g.id) →
        g.status = "FREE" ∧ g.currentFlightId = none) ∧
      (∀ f ∈ (deactivateCrisisRoute (activateCrisisRoute now s)).flights,
        (f.status = "ACTIVE" ∨ f.status = "SCHEDULED") → f.fuelQueuePosition = none) ∧
      (∀ f0 ∈ s.flights, (f0.status = "ACTIVE" ∨ f0.status = "SCHEDULED") →
        ∃ f ∈ (deactivateCrisisRoute (activateCrisisRoute now s)).flights,
          f.id = f0.id ∧ f.status = f0.status ∧ f.fuelQueuePosition = none ∧
          f.predictedTat = some (calcPrediction f0.params).predictedTat ∧
          f.penaltyRisk = some (calcPrediction f0.params).penaltyRisk) := by
  intro s now h
  have h1 : WF (activateCrisisRoute now s) := WF_activateCrisisRoute now h
  refine ⟨divertedOf_deactivate _, deact_gates _, deact_queue_cleared _ h1, ?_⟩
  intro f0 hf0 hst
  obtain ⟨t, ht⟩ := coresOf_activateCrisisRoute now s
  have hcmem : f0.core ∈ coresOf (activateCrisisRoute now s).flights := by
    rw [ht]
    exact List.mem_append_left _ (List.mem_map_of_mem Flight.core hf0)
  rcases List.mem_map.mp hcmem with ⟨f1, hf1, hc⟩
  have hst1 : f1.status = "ACTIVE" ∨ f1.status = "SCHEDULED" := by
    rw [status_of_core hc]
    exact hst
  obtain ⟨f, hf, hid, hstf, hqp, hpt, hpr⟩ := deact_restore _ h1 f1 hf1 hst1
  refine ⟨f, hf, hid.trans (id_of_core hc), ?_, hqp, ?_, ?_⟩
  · rw [hstf]
    exact status_of_core hc
  · rw [hpt, params_of_core hc]
  · rw [hpr, params_of_core hc]

/-- Witness for C6 from a database holding one ACTIVE domestic flight and
one FREE gate. -/
theorem c6_deactivate_reverts_witness :
    WF ⟨[c1flight 1 5000], [⟨1, "G5", "FREE", none⟩], none, 2⟩ ∧
    (divertedOf (deactivateCrisisRoute
        (activateCrisisRoute 0 ⟨[c1flight 1 5000], [⟨1, "G5", "FREE", none⟩], none, 2⟩)).flights
        = [] ∧
     (∀ g ∈ (deactivateCrisisRoute
        (activateCrisisRoute 0 ⟨[c1flight 1 5000], [⟨1, "G5", "FREE", none⟩], none, 2⟩)).gates,
        (∃ f ∈ divertedOf (activateCrisisRoute 0
            ⟨[c1flight 1 5000], [⟨1, "G5", "FREE", none⟩], none, 2⟩).flights,
          f.gateId = some g.id) →
        g.status = "FREE" ∧ g.currentFlightId = none) ∧
     (∀ f ∈ (deactivateCrisisRoute
        (activateCrisisRoute 0 ⟨[c1flight 1 5000], [⟨1, "G5", "FREE", none⟩], none, 2⟩)).flights,
        (f.status = "ACTIVE" ∨ f.status = "SCHEDULED") → f.fuelQueuePosition = none) ∧
     (∀ f0 ∈ ([c1flight 1 5000] : List Flight),
        (f0.status = "ACTIVE" ∨ f0.status = "SCHEDULED") →
        ∃ f ∈ (deactivateCrisisRoute
            (activateCrisisRoute 0
              ⟨[c1flight 1 5000], [⟨1, "G5", "FREE", none⟩], none, 2⟩)).flights,
          f.id = f0.id ∧ f.status = f0.status ∧ f.fuelQueuePosition = none ∧
          f.predictedTat = some (calcPrediction f0.params).predictedTat ∧
          f.penaltyRisk = some (calcPrediction f0.params).penaltyRisk)) := by
  have hwf : WF ⟨[c1flight 1 5000], [⟨1, "G5", "FREE", none⟩], none, 2⟩ := by
    constructor
    · intro x hx
      have hx1 : x = 1 := by
        simpa [idsOf, c1flight] using hx
      rw [hx1]
      show (1 : ℕ) < 2
      decide
    · simp [idsOf]
  exact ⟨hwf, c6_deactivate_reverts ⟨[c1flight 1 5000], [⟨1, "G5", "FREE", none⟩], none, 2⟩ 0 hwf⟩

/-- C1 (failing input): with three domestic flights whose manual fuel
durations are 10, 14, 8 minutes, the fuel-queue view's estimated waits are
0, 10, 24 — the sum of the durations strictly ahead — but the activation
loop adds queueWait = i * ownFuelDuration to each flight's TAT: the third
flight (fuel 8, base TAT 8 + 10 = 18) is stored with predictedTat
34 = 18 + 2*8, not 18 + 24 = 42 as the claimed sum-of-ahead wait requires.
The loop's own comment ("each waits for prev to finish on Bowser 4") and
the view agree with the claim; the stored TAT does not. -/
theorem c1_domestic_queue_wait_bug :
    ((activateCrisisRoute 0 c1state).flights.map (fun f => (f.id, f.predictedTat))) =
      [(1, some 20), (2, some 38), (3, some 34), (4, none)] ∧
    fuelQueueWaits (activateCrisisRoute 0 c1state) = [0, 10, 24] ∧
    (34 : ℤ) = 8 + 10 + 2 * 8 ∧ ¬ (34 : ℤ) = 8 + 10 + 24 := by
  have e0 : jsRound (((0 : ℤ) : ℚ) * 0.15 + ((0 : ℤ) : ℚ) * 0.1) = 0 :=
    jsRound_eq_of (by norm_num) (by norm_num)
  have e1 : jsRound (((5000 : ℤ) : ℚ) / 500) = 10 :=
    jsRound_eq_of (by norm_num) (by norm_num)
  have e2 : jsRound (((7000 : ℤ) : ℚ) / 500) = 14 :=
    jsRound_eq_of (by norm_num) (by norm_num)
  have e3 : jsRound (((4000 : ℤ) : ℚ) / 500) = 8 :=
    jsRound_eq_of (by norm_num) (by norm_num)
  have hstate : activateCrisisRoute 0 c1state =
      updateFlightWith (updateFlightWith (updateFlightWith
        ⟨[c1flight 1 5000, c1flight 2 7000, c1flight 3 4000,
          { blankFlight with id := 4, status := "DIVERTED", penaltyRatePerMin := 15000 }],
         [], some ⟨1, true, 4, 500, some 0⟩, 5⟩
        1 (domesticActivatePatch 0 (c1flight 1 5000)))
        2 (domesticActivatePatch 1 (c1flight 2 7000)))
        3 (domesticActivatePatch 2 (c1flight 3 4000)) := rfl
  refine ⟨?_, ?_, by norm_num, by norm_num⟩
  · rw [hstate]
    simp only [updateFlightWith, List.map_cons, List.map_nil, c1flight, blankFlight,
      domesticActivatePatch, e0, e1, e2, e3]
    norm_num
  · rw [hstate]
    simp only [fuelQueueWaits, domesticQueue, updateFlightWith,
      c1flight, blankFlight, domesticActivatePatch, e0, e1, e2, e3,
      List.insertionSort, List.orderedInsert, queuePosLE, Option.getD]
    norm_num [List.filter]
    rw [show List.range 3 = [0, 1, 2] from rfl]
    have e1q : jsRound (10 : ℚ) = 10 := jsRound_eq_of (by norm_num) (by norm_num)
    have e2q : jsRound (14 : ℚ) = 14 := jsRound_eq_of (by norm_num) (by norm_num)
    simp [estimatedWaitMins, e1, e2, e3]
    norm_num [e1q, e2q]

end IndiGround
